import Mathlib

set_option maxHeartbeats 1000000

/-!
Verification development for the VideoHubSim router-protocol simulator.

The JavaScript sources are shallowly embedded: machine bytes are `Nat`
(values kept below 256 by explicit `% 256` where JS truncates), JS
`Buffer`s are `List Nat`, JS strings are `String` or `List Char`, JS
objects used as integer-keyed tables are functions `Nat → Option _`
(`none` models an absent key / `null`), and every stateful method is a
pure function from the old state to the new state plus its observable
outputs (socket writes, broadcasts, emitted events).
-/

namespace VideoHubSim

/-- JS `indexOf` on an array/buffer: index of the first occurrence, `none`
standing for the JS result `-1`. -/
def jsIndexOf {α : Type} [DecidableEq α] : List α → α → Option Nat
  | [], _ => none
  | a :: rest, x => if a = x then some 0 else (jsIndexOf rest x).map (· + 1)

@[simp]
theorem jsIndexOf_cons_self {α : Type} [DecidableEq α] (a : α) (l : List α) :
    jsIndexOf (a :: l) a = some 0 := by
  simp [jsIndexOf]

/-- JS `s.substring(0, n)`. -/
def jsSubstring0 (s : String) (n : Nat) : String := ⟨s.data.take n⟩

/-- JS `s.split(sep)` for a one-character separator: every occurrence
splits, empty pieces are kept. -/
def jsSplitOn (s : String) (c : Char) : List String :=
  (s.data.splitOn c).map (fun l => ⟨l⟩)

/-- JS `s.padEnd(n)`: pad with spaces on the right up to length `n`; a
longer string is returned unchanged. -/
def jsPadEnd (s : String) (n : Nat) : String :=
  ⟨s.data ++ List.replicate (n - s.data.length) ' '⟩

/-- JS `a || b` where `a` is an indexed lookup that may be `undefined` and
strings are falsy exactly when empty. -/
def jsOrStr (a : Option String) (b : String) : String :=
  match a with
  | some s => if s = "" then b else s
  | none => b

theorem jsPadEnd_substring_length (s : String) (n : Nat) :
    (jsPadEnd (jsSubstring0 s n) n).length = n := by
  simp only [jsPadEnd, jsSubstring0, String.length]
  simp only [List.length_append, List.length_replicate, List.length_take]
  omega

/-- JS whitespace (the `\s` class and `trim`), restricted to the ASCII
whitespace characters that can occur in these protocols. -/
def jsIsSpace (c : Char) : Bool :=
  c == ' ' || c == '\t' || c == '\n' || c == '\r' || c == '\x0b' || c == '\x0c'

/-- Numeric value of a digit run. -/
def digitsVal (l : List Char) : Nat :=
  l.foldl (fun n c => 10 * n + (c.toNat - '0'.toNat)) 0

/-- JS `parseInt(s, 10)`: skip leading whitespace, then an optional sign
and the longest digit run; `none` models the JS result `NaN` (for which
every `<`/`>=` comparison in the guards below is false, exactly as a
`none` match arm rejecting the entry). -/
def jsParseInt (s : String) : Option Int :=
  let core : List Char → Option Nat := fun l =>
    let ds := l.takeWhile Char.isDigit
    if ds.isEmpty then none else some (digitsVal ds)
  match s.data.dropWhile (fun c => jsIsSpace c) with
  | '-' :: rest => (core rest).map (fun n => -(n : Int))
  | '+' :: rest => (core rest).map (fun n => (n : Int))
  | l => (core l).map (fun n => (n : Int))

/-- JS `s.trim()`. -/
def jsTrim (s : String) : String :=
  ⟨((s.data.dropWhile (fun c => jsIsSpace c)).reverse.dropWhile
      (fun c => jsIsSpace c)).reverse⟩

/-- JS `s.toUpperCase()` (ASCII). -/
def jsToUpper (s : String) : String := ⟨s.data.map Char.toUpper⟩

/-- Update one key of an integer-keyed JS object. -/
def updMap {α : Type} (f : Nat → Option α) (k : Nat) (v : Option α) :
    Nat → Option α :=
  fun j => if j = k then v else f j

/-- Render an optional number the way a JS template literal does
(an absent key prints as `undefined`). -/
def optNatStr (o : Option Nat) : String :=
  match o with
  | some v => toString v
  | none => "undefined"

/-- The non-blank body lines of a block:
`lines.slice(1).filter(l => l.trim())`. -/
def dataLinesOf (lines : List String) : List String :=
  (lines.drop 1).filter (fun l => jsTrim l ≠ "")

/-- The label-update regex `^(\d+)\s+(.*)$`: a leading digit run, a
whitespace run, and the rest of the line as the literal label (the first
whitespace run delimits; both runs are maximal by greediness). -/
def parseLabelLine (line : String) : Option (Nat × String) :=
  let ds := line.data.takeWhile Char.isDigit
  let rest := line.data.dropWhile Char.isDigit
  let ws := rest.takeWhile (fun c => jsIsSpace c)
  let lab := rest.dropWhile (fun c => jsIsSpace c)
  if ds.isEmpty ∨ ws.isEmpty then none
  else some (digitsVal ds, ⟨lab⟩)

/-! ## SW-P-08 server (the `SWP08Server` class at `src/unnamed/part_002`
lines 537-1344: DLE/STX ... DLE/ETX framing with BTC and two's-complement
checksum). -/

namespace SWP08

def DLE : Nat := 0x10
def STX : Nat := 0x02
def ETX : Nat := 0x03
def ACK : Nat := 0x06
def NAK : Nat := 0x15

/-- Command codes (the `CMD` table, part_002 lines 548-575). -/
def CROSSPOINT_INTERROGATE : Nat := 0x01
def CROSSPOINT_CONNECT : Nat := 0x02
def CROSSPOINT_TALLY : Nat := 0x03
def CROSSPOINT_CONNECTED : Nat := 0x04
def CROSSPOINT_TALLY_DUMP_REQUEST : Nat := 0x15
def EXTENDED_CROSSPOINT_INTERROGATE : Nat := 0x81
def EXTENDED_CROSSPOINT_CONNECT : Nat := 0x82
def EXTENDED_CROSSPOINT_CONNECTED : Nat := 0x84
def SOURCE_NAME_REQUEST : Nat := 0x64
def DEST_NAME_REQUEST : Nat := 0x66
def SOURCE_NAME_RESPONSE : Nat := 0x6a
def DEST_NAME_RESPONSE : Nat := 0x6b
def EXTENDED_SOURCE_NAME_REQUEST : Nat := 0xe4
def EXTENDED_DEST_NAME_REQUEST : Nat := 0xe6
def EXTENDED_SOURCE_NAME_RESPONSE : Nat := 0xea
def EXTENDED_DEST_NAME_RESPONSE : Nat := 0xeb

/-- `escapeData` (lines 803-812): every byte is emitted, and a `DLE` byte
is doubled. -/
def escapeData : List Nat → List Nat
  | [] => []
  | b :: rest => if b = DLE then b :: DLE :: escapeData rest else b :: escapeData rest

/-- `unescapeData` (lines 790-801): a `DLE DLE` pair collapses to one `DLE`;
any other byte is copied. -/
def unescapeData : List Nat → List Nat
  | a :: b :: rest =>
    if a = DLE ∧ b = DLE then DLE :: unescapeData rest
    else a :: unescapeData (b :: rest)
  | l => l

/-- Running byte sum `(sum + byte) & 0xFF` of `calculateChecksum`
(lines 814-820). -/
def sumBytes (data : List Nat) : Nat :=
  data.foldl (fun s b => (s + b) % 256) 0

/-- `calculateChecksum` (lines 814-820): the two's complement
`(~sum + 1) & 0xFF` of the running sum, which for `sum < 256` equals
`(256 - sum) % 256`. -/
def calculateChecksum (data : List Nat) : Nat :=
  (256 - sumBytes data) % 256

/-- `buildMessage` (lines 827-849): BTC is the data length (truncated to a
byte by `Buffer.from`), the checksum covers data plus BTC, and the escaped
payload is framed by `DLE STX` / `DLE ETX`. -/
def buildMessage (data : List Nat) : List Nat :=
  let btc := data.length % 256
  let dataWithBtc := data ++ [btc]
  let checksum := calculateChecksum dataWithBtc
  let payload := dataWithBtc ++ [checksum]
  [DLE, STX] ++ escapeData payload ++ [DLE, ETX]

/-- Outcome of one framed message in `processBuffer`: either a message is
handed to `processMessage` and `DLE ACK` is written back, or `DLE NAK` is
written back. -/
inductive RxItem
  | msg (data : List Nat)
  | nak
deriving DecidableEq

/-- The link-level reply written for each received frame (lines 765, 769,
778, 780). -/
def linkReplies (items : List RxItem) : List (List Nat) :=
  items.map fun i =>
    match i with
    | .msg _ => [DLE, ACK]
    | .nak => [DLE, NAK]

/-- The message-end scan of `processBuffer` (lines 722-732), which walks
the bytes after `DLE STX` skipping escaped `DLE DLE` pairs until it sees
`DLE ETX`.  The JS loop runs over indices; this structural version returns
the offset of the closing `DLE` from the scan start. -/
def findMsgEnd : List Nat → Option Nat
  | a :: b :: rest =>
    if a = DLE then
      if b = DLE then (findMsgEnd rest).map (· + 2)
      else if b = ETX then some 0
      else (findMsgEnd (b :: rest)).map (· + 1)
    else (findMsgEnd (b :: rest)).map (· + 1)
  | _ => none

/-- The `processBuffer` while-loop (lines 701-788), fuel-indexed so that it
is structurally recursive.  Every iteration consumes at least one byte of
the buffer, so fuel `buffer.length` (as used by `processBuffer` below) can
never run out; the fuel-0 branch returns the buffer unchanged. -/
def processBufferF : Nat → List Nat → List RxItem × List Nat
  | 0, buffer => ([], buffer)
  | fuel + 1, buffer =>
    if buffer.length < 4 then ([], buffer)
    else
      match jsIndexOf buffer DLE with
      | none => ([], [])
      | some dlePos =>
        let b := buffer.drop dlePos
        if b.getD 1 0 ≠ STX then processBufferF fuel (b.drop 1)
        else
          match findMsgEnd (b.drop 2) with
          | none => ([], b)
          | some k =>
            let unesc := unescapeData ((b.drop 2).take k)
            let next := b.drop (k + 4)
            if unesc.length < 3 then processBufferF fuel next
            else
              let checkByte := unesc.getLast?.getD 0
              let btc := unesc.dropLast.getLast?.getD 0
              let msgData := unesc.dropLast.dropLast
              let dataWithBtc := unesc.dropLast
              let rest := processBufferF fuel next
              if btc ≠ msgData.length + 1 then
                if calculateChecksum dataWithBtc = checkByte then
                  (RxItem.msg dataWithBtc :: rest.1, rest.2)
                else
                  (RxItem.nak :: rest.1, rest.2)
              else
                if calculateChecksum dataWithBtc = checkByte then
                  (RxItem.msg msgData :: rest.1, rest.2)
                else
                  (RxItem.nak :: rest.1, rest.2)

/-- `processBuffer`: the accepted/NAKed frames of a buffer together with
the bytes kept for the next `data` event. -/
def processBuffer (buffer : List Nat) : List RxItem × List Nat :=
  processBufferF buffer.length buffer

theorem processBufferF_nil (fuel : Nat) : processBufferF fuel [] = ([], []) := by
  cases fuel <;> simp [processBufferF]

theorem unescape_escape (p : List Nat) : unescapeData (escapeData p) = p := by
  induction p with
  | nil => rfl
  | cons x xs ih =>
    by_cases hx : x = DLE
    · subst hx
      simp only [escapeData, if_pos rfl, unescapeData, and_self, if_pos trivial]
      exact congrArg _ ih
    · simp only [escapeData, if_neg hx]
      cases hE : escapeData xs with
      | nil =>
        cases xs with
        | nil => simp [unescapeData]
        | cons y ys =>
          exfalso
          by_cases hy : y = DLE <;> simp [escapeData, hy] at hE
      | cons e es =>
        rw [← hE]
        have : unescapeData (x :: e :: es) = x :: unescapeData (e :: es) := by
          simp [unescapeData, hx]
        rw [hE] at ih ⊢
        rw [this, ih]

theorem escape_length_le (p : List Nat) : p.length ≤ (escapeData p).length := by
  induction p with
  | nil => simp [escapeData]
  | cons x xs ih =>
    by_cases hx : x = DLE <;> simp [escapeData, hx] <;> omega

theorem findMsgEnd_cons_cons (a b : Nat) (rest : List Nat) :
    findMsgEnd (a :: b :: rest) =
      if a = DLE then
        if b = DLE then (findMsgEnd rest).map (· + 2)
        else if b = ETX then some 0
        else (findMsgEnd (b :: rest)).map (· + 1)
      else (findMsgEnd (b :: rest)).map (· + 1) := rfl

theorem findMsgEnd_escape (p : List Nat) :
    findMsgEnd (escapeData p ++ [DLE, ETX]) = some (escapeData p).length := by
  induction p with
  | nil =>
    rw [show escapeData [] = [] from rfl, List.nil_append, findMsgEnd_cons_cons,
      if_pos rfl, if_neg (by decide), if_pos rfl]
    rfl
  | cons x xs ih =>
    by_cases hx : x = DLE
    · subst hx
      rw [show escapeData (DLE :: xs) = DLE :: DLE :: escapeData xs from by
        simp [escapeData]]
      rw [List.cons_append, List.cons_append, findMsgEnd_cons_cons, if_pos rfl,
        if_pos rfl, ih]
      simp
    · simp only [escapeData, if_neg hx, List.cons_append]
      cases hE : escapeData xs ++ [DLE, ETX] with
      | nil => simp at hE
      | cons e es =>
        rw [findMsgEnd_cons_cons, if_neg hx, ← hE, ih]
        simp

theorem processBufferF_buildMessage (fuel : Nat) (m : List Nat) (hm : m ≠ []) :
    processBufferF (fuel + 1) (buildMessage m) =
      ([RxItem.msg (m ++ [m.length % 256])], []) := by
  have hm1 : 1 ≤ m.length := List.length_pos.mpr hm
  have hmod : m.length % 256 ≤ m.length := Nat.mod_le _ _
  obtain ⟨btc, hbtc⟩ : ∃ b, m.length % 256 = b := ⟨_, rfl⟩
  obtain ⟨ck, hck⟩ : ∃ c, calculateChecksum (m ++ [btc]) = c := ⟨_, rfl⟩
  have hbuild : buildMessage m =
      DLE :: STX :: (escapeData ((m ++ [btc]) ++ [ck]) ++ [DLE, ETX]) := by
    simp only [buildMessage, hbtc, hck]
    rfl
  have hElen : m.length + 2 ≤ (escapeData ((m ++ [btc]) ++ [ck])).length := by
    have h := escape_length_le ((m ++ [btc]) ++ [ck])
    simp only [List.length_append, List.length_cons, List.length_nil] at h
    omega
  rw [hbtc, hbuild]
  simp only [processBufferF]
  rw [if_neg (by simp only [List.length_cons, List.length_append]; omega)]
  rw [jsIndexOf_cons_self]
  simp only [List.drop_zero, List.getD_cons_succ, List.getD_cons_zero,
    List.drop_succ_cons]
  rw [if_neg (by simp)]
  simp only [findMsgEnd_escape, List.take_left, unescape_escape]
  rw [if_neg (by
    simp only [List.length_append, List.length_cons, List.length_nil]; omega)]
  simp only [List.getLast?_concat, List.dropLast_concat, Option.getD_some]
  rw [if_pos (by omega)]
  rw [if_pos hck]
  have hdrop : List.drop ((escapeData (m ++ [btc] ++ [ck])).length + 2)
      (escapeData (m ++ [btc] ++ [ck]) ++ [DLE, ETX]) = [] := by
    apply List.drop_eq_nil_of_le
    simp
  rw [hdrop, processBufferF_nil]

/-- Round trip through the SW-P-08 framing layer: a frame produced by
`buildMessage m` is accepted (hence answered with `DLE ACK`), but because
`buildMessage` writes `BTC = m.length` while `processBuffer` expects
`BTC = m.length + 1`, the legacy fallback triggers and `processMessage`
receives `m` with the BTC byte still appended. -/
theorem processBuffer_buildMessage (m : List Nat) (hm : m ≠ []) :
    processBuffer (buildMessage m) =
      ([RxItem.msg (m ++ [m.length % 256])], []) := by
  obtain ⟨k, hk⟩ : ∃ k, (buildMessage m).length = k + 1 := by
    refine ⟨(buildMessage m).length - 1, ?_⟩
    have : 0 < (buildMessage m).length := by
      simp only [buildMessage]
      simp
    omega
  rw [processBuffer, hk]
  exact processBufferF_buildMessage k m hm

/-! ### SW-P-08 address packing helpers

These definitions are the literal bit expressions of the handlers:
unpacking as in `handleCrosspointConnect` (lines 950-953), packing as in
`handleTallyDumpRequest` (lines 1054-1058), and the 16-bit extended split
as in `handleExtendedCrosspointInterrogate` / `Connect` (lines 988-992,
1018-1019). -/

/-- `dest = (destHi << 7) | (destLo & 0x7F)` with
`destHi = (multiplier >> 4) & 0x07` (lines 951, 953). -/
def swpDest (multiplier destLo : Nat) : Nat :=
  (((multiplier >>> 4) &&& 0x07) <<< 7) ||| (destLo &&& 0x7F)

/-- `source = (srcHi << 7) | (srcLo & 0x7F)` with
`srcHi = multiplier & 0x07` (lines 950, 952). -/
def swpSrc (multiplier srcLo : Nat) : Nat :=
  ((multiplier &&& 0x07) <<< 7) ||| (srcLo &&& 0x7F)

/-- High three bits of a 10-bit address: `(a >> 7) & 0x07`
(lines 1054, 1056). -/
def swpHi7 (a : Nat) : Nat := (a >>> 7) &&& 0x07

/-- Low seven bits of an address: `a & 0x7F` (lines 1055, 1057). -/
def swpLo7 (a : Nat) : Nat := a &&& 0x7F

/-- The multiplier byte `(destHi << 4) | srcHi` (lines 964, 1058). -/
def swpMult (destHi srcHi : Nat) : Nat := (destHi <<< 4) ||| srcHi

/-- Extended-form high byte `(a >> 8) & 0xFF` (line 991). -/
def swpExtHi (a : Nat) : Nat := (a >>> 8) &&& 0xFF

/-- Extended-form low byte `a & 0xFF` (line 992). -/
def swpExtLo (a : Nat) : Nat := a &&& 0xFF

/-- Extended-form address `(hi << 8) | lo` (lines 988, 1018). -/
def swpExtAddr (hi lo : Nat) : Nat := (hi <<< 8) ||| lo

/-! ### SW-P-08 server state and message handlers -/

/-- The mutable fields of `SWP08Server` that the message handlers read or
write.  `routing level dest = none` models a missing object key, read back
through `?? 0` as source 0. -/
structure SwpState where
  inputs : Nat
  outputs : Nat
  levels : Nat
  routing : Nat → Nat → Option Nat
  inputLabels : Nat → Option String
  outputLabels : Nat → Option String

/-- Observable effect of one handled message: frames written back to the
requesting socket, frames broadcast to every client, and the routing table
afterwards (no handler writes labels). -/
structure SwpFx where
  sends : List (List Nat)
  bcasts : List (List Nat)
  routing : Nat → Nat → Option Nat

/-- A handler that falls through without responding or mutating. -/
def noFx (st : SwpState) : SwpFx := ⟨[], [], st.routing⟩

/-- Byte list of an ASCII label string. -/
def strBytes (s : String) : List Nat := s.data.map Char.toNat

/-- The `charLengths` table `[4, 8, 12]` (line 1080 etc.). -/
def charLengths : List Nat := [4, 8, 12]

/-- `charLengths[charLenIndex] || 8`: a missing index is `undefined`,
which falls back to 8 (the in-range values 4/8/12 are all truthy). -/
def charLenOf (idx : Nat) : Nat :=
  match charLengths.get? idx with
  | some n => n
  | none => 8

/-- `label.substring(0, charLen).padEnd(charLen)` (lines 1087, 1118,
1149, 1181). -/
def swpPadLabel (label : String) (charLen : Nat) : String :=
  jsPadEnd (jsSubstring0 label charLen) charLen

/-- `this.inputLabels[source] || `IN n`` (line 1086). -/
def srcLabel (st : SwpState) (i : Nat) : String :=
  jsOrStr (st.inputLabels i) ("IN " ++ toString (i + 1))

/-- `this.outputLabels[dest] || `OUT n`` (line 1117). -/
def dstLabel (st : SwpState) (i : Nat) : String :=
  jsOrStr (st.outputLabels i) ("OUT " ++ toString (i + 1))

/-- `handleCrosspointInterrogate` (lines 896-932). -/
def handleCrosspointInterrogate (st : SwpState) (data : List Nat) : SwpFx :=
  if data.length < 4 then noFx st
  else
    let matrixLevel := data.getD 1 0
    let level := matrixLevel &&& 0x0F
    let multiplier := data.getD 2 0
    let destLo := data.getD 3 0
    let dest := swpDest multiplier destLo
    let source := (st.routing level dest).getD 0
    let respMultiplier := swpMult ((multiplier >>> 4) &&& 0x07) (swpHi7 source)
    ⟨[buildMessage [CROSSPOINT_CONNECTED, matrixLevel, respMultiplier, destLo,
        swpLo7 source]], [], st.routing⟩

/-- `handleCrosspointConnect` (lines 934-976).  Note there is no bound
check on `level`; the `if (!this.routing[level])` empty-object creation is
invisible in the map model of the table. -/
def handleCrosspointConnect (st : SwpState) (data : List Nat) : SwpFx :=
  if data.length < 5 then noFx st
  else
    let matrixLevel := data.getD 1 0
    let level := matrixLevel &&& 0x0F
    let multiplier := data.getD 2 0
    let destLo := data.getD 3 0
    let srcLo := data.getD 4 0
    let source := swpSrc multiplier srcLo
    let dest := swpDest multiplier destLo
    if dest < st.outputs ∧ source < st.inputs then
      let respMultiplier := swpMult ((multiplier >>> 4) &&& 0x07) (multiplier &&& 0x07)
      ⟨[], [buildMessage [CROSSPOINT_CONNECTED, matrixLevel, respMultiplier, destLo, srcLo]],
        fun l d => if l = level ∧ d = dest then some source else st.routing l d⟩
    else noFx st

/-- `handleTallyDumpRequest` (lines 1044-1069): one `CROSSPOINT_TALLY`
frame per destination of the requested level. -/
def handleTallyDumpRequest (st : SwpState) (data : List Nat) : SwpFx :=
  let matrixLevel := data.getD 1 0
  let level := matrixLevel &&& 0x0F
  ⟨(List.range st.outputs).map (fun dest =>
      let source := (st.routing level dest).getD 0
      buildMessage [CROSSPOINT_TALLY, matrixLevel,
        swpMult (swpHi7 dest) (swpHi7 source), swpLo7 dest, swpLo7 source]),
    [], st.routing⟩

/-- `handleSourceNameRequest` (lines 1071-1101). -/
def handleSourceNameRequest (st : SwpState) (data : List Nat) : SwpFx :=
  if data.length < 3 then noFx st
  else
    let matrixLevel := data.getD 1 0
    let charLenIndex := data.getD 2 0
    let charLen := charLenOf charLenIndex
    ⟨(List.range st.inputs).map (fun i =>
        buildMessage ([SOURCE_NAME_RESPONSE, matrixLevel, charLenIndex,
          (i >>> 8) &&& 0xFF, i &&& 0xFF, 1] ++
          strBytes (swpPadLabel (srcLabel st i) charLen))),
      [], st.routing⟩

/-- `handleDestNameRequest` (lines 1103-1132). -/
def handleDestNameRequest (st : SwpState) (data : List Nat) : SwpFx :=
  if data.length < 3 then noFx st
  else
    let matrix := data.getD 1 0
    let charLenIndex := data.getD 2 0
    let charLen := charLenOf charLenIndex
    ⟨(List.range st.outputs).map (fun i =>
        buildMessage ([DEST_NAME_RESPONSE, matrix, charLenIndex,
          (i >>> 8) &&& 0xFF, i &&& 0xFF, 1] ++
          strBytes (swpPadLabel (dstLabel st i) charLen))),
      [], st.routing⟩

/-- `handleExtendedCrosspointInterrogate` (lines 978-1005). -/
def handleExtendedCrosspointInterrogate (st : SwpState) (data : List Nat) : SwpFx :=
  if data.length < 5 then noFx st
  else
    let matrix := data.getD 1 0
    let level := data.getD 2 0
    let destHi := data.getD 3 0
    let destLo := data.getD 4 0
    let dest := swpExtAddr destHi destLo
    let source := (st.routing level dest).getD 0
    ⟨[buildMessage [EXTENDED_CROSSPOINT_CONNECTED, matrix, level, destHi, destLo,
        swpExtHi source, swpExtLo source]], [], st.routing⟩

/-- `handleExtendedCrosspointConnect` (lines 1007-1042). -/
def handleExtendedCrosspointConnect (st : SwpState) (data : List Nat) : SwpFx :=
  if data.length < 7 then noFx st
  else
    let matrix := data.getD 1 0
    let level := data.getD 2 0
    let destHi := data.getD 3 0
    let destLo := data.getD 4 0
    let srcHi := data.getD 5 0
    let srcLo := data.getD 6 0
    let dest := swpExtAddr destHi destLo
    let source := swpExtAddr srcHi srcLo
    if dest < st.outputs ∧ source < st.inputs then
      ⟨[], [buildMessage [EXTENDED_CROSSPOINT_CONNECTED, matrix, level, destHi, destLo,
          srcHi, srcLo]],
        fun l d => if l = level ∧ d = dest then some source else st.routing l d⟩
    else noFx st

/-- `handleExtendedSourceNameRequest` (lines 1134-1164). -/
def handleExtendedSourceNameRequest (st : SwpState) (data : List Nat) : SwpFx :=
  if data.length < 4 then noFx st
  else
    let matrix := data.getD 1 0
    let level := data.getD 2 0
    let charLenIndex := data.getD 3 0
    let charLen := charLenOf charLenIndex
    ⟨(List.range st.inputs).map (fun i =>
        buildMessage ([EXTENDED_SOURCE_NAME_RESPONSE, matrix, level, charLenIndex,
          (i >>> 8) &&& 0xFF, i &&& 0xFF, 1] ++
          strBytes (swpPadLabel (srcLabel st i) charLen))),
      [], st.routing⟩

/-- `handleExtendedDestNameRequest` (lines 1166-1196). -/
def handleExtendedDestNameRequest (st : SwpState) (data : List Nat) : SwpFx :=
  if data.length < 4 then noFx st
  else
    let matrix := data.getD 1 0
    let level := data.getD 2 0
    let charLenIndex := data.getD 3 0
    let charLen := charLenOf charLenIndex
    ⟨(List.range st.outputs).map (fun i =>
        buildMessage ([EXTENDED_DEST_NAME_RESPONSE, matrix, level, charLenIndex,
          (i >>> 8) &&& 0xFF, i &&& 0xFF, 1] ++
          strBytes (swpPadLabel (dstLabel st i) charLen))),
      [], st.routing⟩

/-- `processMessage` (lines 851-894): dispatch on the command byte; the
switch default emits only a log event. -/
def processMessage (st : SwpState) (data : List Nat) : SwpFx :=
  if data.length < 1 then noFx st
  else
    let cmd := data.getD 0 0
    if cmd = CROSSPOINT_INTERROGATE then handleCrosspointInterrogate st data
    else if cmd = CROSSPOINT_CONNECT then handleCrosspointConnect st data
    else if cmd = CROSSPOINT_TALLY_DUMP_REQUEST then handleTallyDumpRequest st data
    else if cmd = SOURCE_NAME_REQUEST then handleSourceNameRequest st data
    else if cmd = DEST_NAME_REQUEST then handleDestNameRequest st data
    else if cmd = EXTENDED_CROSSPOINT_INTERROGATE then
      handleExtendedCrosspointInterrogate st data
    else if cmd = EXTENDED_CROSSPOINT_CONNECT then
      handleExtendedCrosspointConnect st data
    else if cmd = EXTENDED_SOURCE_NAME_REQUEST then
      handleExtendedSourceNameRequest st data
    else if cmd = EXTENDED_DEST_NAME_REQUEST then
      handleExtendedDestNameRequest st data
    else noFx st

/-! ### Arithmetic view of the packing bit operations -/

theorem shiftLeft_lor_eq_add (hi k lo : Nat) (h : lo < 2 ^ k) :
    (hi <<< k) ||| lo = 2 ^ k * hi + lo := by
  apply Nat.eq_of_testBit_eq
  intro i
  rw [Nat.testBit_mul_pow_two_add hi h i, Nat.testBit_lor, Nat.testBit_shiftLeft]
  by_cases hik : i < k
  · have h1 : ¬ i ≥ k := by omega
    simp [hik, h1]
  · have h2 : lo.testBit i = false :=
      Nat.testBit_lt_two_pow
        (lt_of_lt_of_le h (Nat.pow_le_pow_right (by norm_num) (by omega)))
    have h3 : i ≥ k := by omega
    simp [hik, h2, h3]

theorem land_7_eq (x : Nat) : x &&& 7 = x % 8 := by
  have h := Nat.and_pow_two_sub_one_eq_mod x 3
  norm_num at h
  exact h

theorem land_127_eq (x : Nat) : x &&& 127 = x % 128 := by
  have h := Nat.and_pow_two_sub_one_eq_mod x 7
  norm_num at h
  exact h

theorem land_255_eq (x : Nat) : x &&& 255 = x % 256 := by
  have h := Nat.and_pow_two_sub_one_eq_mod x 8
  norm_num at h
  exact h

theorem swpHi7_eq (a : Nat) : swpHi7 a = a / 128 % 8 := by
  rw [swpHi7, Nat.shiftRight_eq_div_pow]
  have h := land_7_eq (a / 2 ^ 7)
  norm_num at h ⊢
  exact h

theorem swpLo7_eq (a : Nat) : swpLo7 a = a % 128 := land_127_eq a

theorem swpMult_eq (destHi srcHi : Nat) (h : srcHi < 16) :
    swpMult destHi srcHi = 16 * destHi + srcHi := by
  rw [swpMult, shiftLeft_lor_eq_add destHi 4 srcHi (by norm_num; omega)]
  norm_num

theorem swpDest_eq (mult destLo : Nat) :
    swpDest mult destLo = 128 * (mult / 16 % 8) + destLo % 128 := by
  rw [swpDest, Nat.shiftRight_eq_div_pow, land_7_eq, land_127_eq,
    shiftLeft_lor_eq_add _ 7 _ (by norm_num; exact Nat.mod_lt _ (by norm_num))]
  norm_num

theorem swpSrc_eq (mult srcLo : Nat) :
    swpSrc mult srcLo = 128 * (mult % 8) + srcLo % 128 := by
  rw [swpSrc, land_7_eq, land_127_eq,
    shiftLeft_lor_eq_add _ 7 _ (by norm_num; exact Nat.mod_lt _ (by norm_num))]
  norm_num

theorem swpExtHi_eq (a : Nat) : swpExtHi a = a / 256 % 256 := by
  rw [swpExtHi, Nat.shiftRight_eq_div_pow]
  have h := land_255_eq (a / 2 ^ 8)
  norm_num at h ⊢
  exact h

theorem swpExtLo_eq (a : Nat) : swpExtLo a = a % 256 := land_255_eq a

theorem swpExtAddr_eq (hi lo : Nat) (h : lo < 256) :
    swpExtAddr hi lo = 256 * hi + lo := by
  rw [swpExtAddr, shiftLeft_lor_eq_add hi 8 lo (by norm_num; omega)]
  norm_num

end SWP08

/-! ## VideoHub server (`src/src/videohub-server.js`): line-framed text
protocol, per-destination locks owned by connections. -/

namespace VH

/-- A lock owner: a connected socket (an abstract stable handle) or the
`'UI'` marker written by `setLock` (line 523). -/
inductive Owner
  | conn (id : Nat)
  | ui
deriving DecidableEq

/-- The mutable fields of `VideoHubServer` (constructor, lines 5-53).
`none` conflates a JS `null` entry with an absent key; the only place the
code distinguishes them is `updateConfig` re-filling `lockOwners[i]` with
`null`, which is a no-op in this view. -/
structure VHState where
  inputs : Nat
  outputs : Nat
  routing : Nat → Option Nat
  inputLabels : Nat → Option String
  outputLabels : Nat → Option String
  lockOwners : Nat → Option Owner

/-- A broadcast sent to every connected peer (lock broadcasts are
rendered per receiver from the changed outputs). -/
inductive VHBcast
  | routing (changes : List (Nat × Nat))
  | locks (outs : List Nat)
  | inLabels (changes : List (Nat × String))
  | outLabels (changes : List (Nat × String))
deriving DecidableEq

/-- Events emitted to the UI subscriber. -/
inductive VHEvent
  | routingChanged (changes : List (Nat × Nat))
  | locksChanged (changes : List (Nat × String))
  | inputLabelsChanged (changes : List (Nat × String))
  | outputLabelsChanged (changes : List (Nat × String))
deriving DecidableEq

/-- Observable outcome of `processCommand`: writes to the requesting
socket (in order), broadcasts, emitted events, and the state afterwards. -/
structure VHOut where
  sends : List String
  bcasts : List VHBcast
  events : List VHEvent
  state : VHState

/-- Per-viewer lock letter (lines 206-216, 407-419, 449-458): `U` when
unlocked, `O` for the viewer's own lock, `L` for someone else's. -/
def lockView (st : VHState) (viewer : Owner) (o : Nat) : String :=
  match st.lockOwners o with
  | none => "U"
  | some w => if w = viewer then "O" else "L"

/-- The lock letter of the `locks-changed` event after an update:
`this.lockOwners[c.output] ? 'O' : 'U'` (line 269). -/
def emitLockState (st : VHState) (o : Nat) : String :=
  match st.lockOwners o with
  | some _ => "O"
  | none => "U"

/-- One body line of a `VIDEO OUTPUT ROUTING:` update (loop body, lines
171-185): split on a single space, parse both fields, and require bounds
plus that the destination is not locked by a different connection.  For an
out-of-range index the JS `lockOwners[output]` lookup is `undefined`
(which would make `lockedByOther` true), but the entry is rejected by the
bounds conjuncts either way, so mapping it to `none`/false is
observationally identical. -/
def routingLineStep (sock : Owner) (acc : VHState × List (Nat × Nat))
    (line : String) : VHState × List (Nat × Nat) :=
  let st := acc.1
  let changes := acc.2
  let parts := jsSplitOn line ' '
  if parts.length = 2 then
    match jsParseInt (parts.getD 0 ""), jsParseInt (parts.getD 1 "") with
    | some output, some input =>
      let lockedByOther : Bool :=
        match st.lockOwners output.toNat with
        | none => false
        | some w => decide (w ≠ sock)
      if 0 ≤ output ∧ output < (st.outputs : Int) ∧
          0 ≤ input ∧ input < (st.inputs : Int) ∧ lockedByOther = false then
        ({st with routing := updMap st.routing output.toNat (some input.toNat)},
          changes ++ [(output.toNat, input.toNat)])
      else (st, changes)
    | _, _ => (st, changes)
  else (st, changes)

/-- The `VIDEO OUTPUT ROUTING:` update loop (lines 170-186). -/
def applyRouting (sock : Owner) (st : VHState) (dataLines : List String) :
    VHState × List (Nat × Nat) :=
  dataLines.foldl (routingLineStep sock) (st, [])

/-- The innermost lock state machine of the lock-update loop (lines
236-258), for an output already known to be in range: `O` takes
ownership unconditionally, `U` releases only when the output is unlocked
or owned by the caller, `F` releases unconditionally, and any other
letter is ignored.  The second component is the pushed change, if any. -/
def lockOpApply (sock : Owner) (st : VHState) (output : Nat)
    (upperLock : String) : VHState × Option Nat :=
  if upperLock = "O" then
    ({st with lockOwners := updMap st.lockOwners output (some sock)}, some output)
  else if upperLock = "U" then
    if st.lockOwners output = none ∨ st.lockOwners output = some sock then
      ({st with lockOwners := updMap st.lockOwners output none}, some output)
    else (st, none)
  else if upperLock = "F" then
    ({st with lockOwners := updMap st.lockOwners output none}, some output)
  else (st, none)

/-- One body line of a `VIDEO OUTPUT LOCKS:` update (loop body, lines
225-260). -/
def lockLineStep (sock : Owner) (acc : VHState × List Nat) (line : String) :
    VHState × List Nat :=
  let st := acc.1
  let changes := acc.2
  let parts := jsSplitOn line ' '
  if 2 ≤ parts.length then
    match jsParseInt (parts.getD 0 "") with
    | some output =>
      if 0 ≤ output ∧ output < (st.outputs : Int) then
        let r := lockOpApply sock st output.toNat (jsToUpper (parts.getD 1 ""))
        match r.2 with
        | some o => (r.1, changes ++ [o])
        | none => (r.1, changes)
      else (st, changes)
    | none => (st, changes)
  else (st, changes)

/-- The `VIDEO OUTPUT LOCKS:` update loop (lines 224-261). -/
def applyLocks (sock : Owner) (st : VHState) (dataLines : List String) :
    VHState × List Nat :=
  dataLines.foldl (lockLineStep sock) (st, [])

/-- One body line of an `INPUT LABELS:` update (loop body, lines
296-307). -/
def inLabelLineStep (acc : VHState × List (Nat × String)) (line : String) :
    VHState × List (Nat × String) :=
  let st := acc.1
  let changes := acc.2
  match parseLabelLine line with
  | some (input, label) =>
    if input < st.inputs then
      ({st with inputLabels := updMap st.inputLabels input (some label)},
        changes ++ [(input, label)])
    else (st, changes)
  | none => (st, changes)

def applyInLabels (st : VHState) (dataLines : List String) :
    VHState × List (Nat × String) :=
  dataLines.foldl inLabelLineStep (st, [])

/-- One body line of an `OUTPUT LABELS:` update (loop body, lines
337-348). -/
def outLabelLineStep (acc : VHState × List (Nat × String)) (line : String) :
    VHState × List (Nat × String) :=
  let st := acc.1
  let changes := acc.2
  match parseLabelLine line with
  | some (output, label) =>
    if output < st.outputs then
      ({st with outputLabels := updMap st.outputLabels output (some label)},
        changes ++ [(output, label)])
    else (st, changes)
  | none => (st, changes)

def applyOutLabels (st : VHState) (dataLines : List String) :
    VHState × List (Nat × String) :=
  dataLines.foldl outLabelLineStep (st, [])

/-- Query response for `VIDEO OUTPUT ROUTING:` (lines 160-165). -/
def renderRouting (st : VHState) : String :=
  "VIDEO OUTPUT ROUTING:\n" ++
    String.join ((List.range st.outputs).map
      (fun i => toString i ++ " " ++ optNatStr (st.routing i) ++ "\n")) ++ "\n"

/-- Query response for `VIDEO OUTPUT LOCKS:` for the requesting socket
(lines 205-218). -/
def renderLocks (st : VHState) (viewer : Owner) : String :=
  "VIDEO OUTPUT LOCKS:\n" ++
    String.join ((List.range st.outputs).map
      (fun i => toString i ++ " " ++ lockView st viewer i ++ "\n")) ++ "\n"

/-- Query response for `INPUT LABELS:` (lines 285-289). -/
def renderInLabels (st : VHState) : String :=
  "INPUT LABELS:\n" ++
    String.join ((List.range st.inputs).map
      (fun i => toString i ++ " " ++ ((st.inputLabels i).getD "undefined") ++ "\n")) ++ "\n"

/-- Query response for `OUTPUT LABELS:` (lines 326-330). -/
def renderOutLabels (st : VHState) : String :=
  "OUTPUT LABELS:\n" ++
    String.join ((List.range st.outputs).map
      (fun i => toString i ++ " " ++ ((st.outputLabels i).getD "undefined") ++ "\n")) ++ "\n"

/-- The per-receiver rendering of a lock-change broadcast
(`broadcastLockChange`, lines 444-467), from the post-update state. -/
def renderLockDelta (st : VHState) (viewer : Owner) (outs : List Nat) : String :=
  "VIDEO OUTPUT LOCKS:\n" ++
    String.join (outs.map (fun o => toString o ++ " " ++ lockView st viewer o ++ "\n")) ++
    "\n"

/-- `processCommand` (lines 142-362).  Log-only `command-received` /
`unknown-command` emissions are omitted; the `*-changed` events are kept. -/
def processCommand (st : VHState) (sock : Owner) (lines : List String) : VHOut :=
  let header := lines.getD 0 ""
  if header = "PING:" then ⟨["ACK\n\n"], [], [], st⟩
  else if header = "VIDEO OUTPUT ROUTING:" then
    let dataLines := dataLinesOf lines
    if dataLines.isEmpty then ⟨["ACK\n\n", renderRouting st], [], [], st⟩
    else
      let r := applyRouting sock st dataLines
      if ¬ r.2.isEmpty then
        ⟨["ACK\n\n"], [VHBcast.routing r.2], [VHEvent.routingChanged r.2], r.1⟩
      else ⟨["NAK\n\n"], [], [], r.1⟩
  else if header = "VIDEO OUTPUT LOCKS:" then
    let dataLines := dataLinesOf lines
    if dataLines.isEmpty then ⟨["ACK\n\n", renderLocks st sock], [], [], st⟩
    else
      let r := applyLocks sock st dataLines
      if ¬ r.2.isEmpty then
        ⟨["ACK\n\n"], [VHBcast.locks r.2],
          [VHEvent.locksChanged (r.2.map (fun o => (o, emitLockState r.1 o)))], r.1⟩
      else ⟨["NAK\n\n"], [], [], r.1⟩
  else if header = "INPUT LABELS:" then
    let dataLines := dataLinesOf lines
    if dataLines.isEmpty then ⟨["ACK\n\n", renderInLabels st], [], [], st⟩
    else
      let r := applyInLabels st dataLines
      if ¬ r.2.isEmpty then
        ⟨["ACK\n\n"], [VHBcast.inLabels r.2], [VHEvent.inputLabelsChanged r.2], r.1⟩
      else ⟨["NAK\n\n"], [], [], r.1⟩
  else if header = "OUTPUT LABELS:" then
    let dataLines := dataLinesOf lines
    if dataLines.isEmpty then ⟨["ACK\n\n", renderOutLabels st], [], [], st⟩
    else
      let r := applyOutLabels st dataLines
      if ¬ r.2.isEmpty then
        ⟨["ACK\n\n"], [VHBcast.outLabels r.2], [VHEvent.outputLabelsChanged r.2], r.1⟩
      else ⟨["NAK\n\n"], [], [], r.1⟩
  else ⟨[], [], [], st⟩

/-- The default label tables (lines 21-34). -/
def defaultInputLabels : List String :=
  ["CAM 1", "CAM 2", "CAM 3", "CAM 4",
   "Graphics", "VTR 1", "VTR 2", "Live Feed",
   "Sat Receiver", "Studio A", "Studio B", "Remote 1",
   "Edit 1 Out", "Edit 2 Out", "Color Out", "Audio Booth",
   "Server Ch1", "Server Ch2", "Server Ch3", "Server Ch4"]

def defaultOutputLabels : List String :=
  ["PGM", "PVW", "Multiview 1", "Multiview 2",
   "TX Main", "TX Backup", "Record 1", "Record 2",
   "Edit 1 In", "Edit 2 In", "Color In", "QC Monitor",
   "Master Ctrl", "Streaming", "Confidence", "Archive",
   "Studio Mon", "Green Room", "Lobby", "Web Encoder"]

/-- `this.defaultInputLabels[i] || `Input ${i + 1}`` (line 39). -/
def defInLabel (i : Nat) : String :=
  jsOrStr (defaultInputLabels.get? i) ("Input " ++ toString (i + 1))

/-- `this.defaultOutputLabels[i] || `Output ${i + 1}`` (line 42). -/
def defOutLabel (i : Nat) : String :=
  jsOrStr (defaultOutputLabels.get? i) ("Output " ++ toString (i + 1))

/-- The constructor state (lines 14-49) for a given size. -/
def initState (inputs outputs : Nat) : VHState :=
  { inputs := inputs
    outputs := outputs
    routing := fun i => if i < outputs then some (if i < inputs then i else 0) else none
    inputLabels := fun i => if i < inputs then some (defInLabel i) else none
    outputLabels := fun i => if i < outputs then some (defOutLabel i) else none
    lockOwners := fun _ => none }

/-- The configurable size fields of `updateConfig` (port and the display
names do not touch the modeled state). -/
structure VHConfig where
  inputs : Option Nat
  outputs : Option Nat

/-- `updateConfig` (lines 562-586): overwrite the counts, then fill in
only `undefined` label/routing/lock entries for the new ranges; existing
entries are never clamped or re-initialized. -/
def updateConfig (st : VHState) (cfg : VHConfig) : VHState :=
  let inputs := cfg.inputs.getD st.inputs
  let outputs := cfg.outputs.getD st.outputs
  { inputs := inputs
    outputs := outputs
    routing := fun i =>
      match st.routing i with
      | some v => some v
      | none => if i < outputs then some (if i < inputs then i else 0) else none
    inputLabels := fun i =>
      match st.inputLabels i with
      | some s => some s
      | none => if i < inputs then some (defInLabel i) else none
    outputLabels := fun i =>
      match st.outputLabels i with
      | some s => some s
      | none => if i < outputs then some (defOutLabel i) else none
    lockOwners := st.lockOwners }

/-- One iteration of the close handler loop (lines 121-126): a lock held
by the closing socket is cleared and its output pushed onto `changes`. -/
def closeStep (sock : Nat) (acc : VHState × List Nat) (i : Nat) :
    VHState × List Nat :=
  if acc.1.lockOwners i = some (Owner.conn sock) then
    ({acc.1 with lockOwners := updMap acc.1.lockOwners i none}, acc.2 ++ [i])
  else acc

/-- The socket `close` handler (lines 116-134): clear every lock owned by
the closing socket, and if any was cleared broadcast the lock delta (to
the remaining peers; the closing socket has already been removed from
`clients`) and emit `locks-changed` with `U` states. -/
def handleClose (st : VHState) (sock : Nat) :
    VHState × List VHBcast × List VHEvent :=
  let r := (List.range st.outputs).foldl (closeStep sock) (st, [])
  if ¬ r.2.isEmpty then
    (r.1, [VHBcast.locks r.2],
      [VHEvent.locksChanged (r.2.map (fun o => (o, "U")))])
  else (r.1, [], [])

/-- The destinations whose locks the `close` handler frees. -/
def freedBy (st : VHState) (sock : Nat) : List Nat :=
  (List.range st.outputs).filter
    (fun i => decide (st.lockOwners i = some (Owner.conn sock)))

/-- The changes accumulator of an update loop only ever grows. -/
theorem foldl_snd_extends {σ δ β : Type} (step : σ × List δ → β → σ × List δ)
    (h1 : ∀ acc line, ∃ d, (step acc line).2 = acc.2 ++ d) :
    ∀ (l : List β) (acc : σ × List δ), ∃ s, (l.foldl step acc).2 = acc.2 ++ s := by
  intro l
  induction l with
  | nil => exact fun acc => ⟨[], by simp⟩
  | cons x xs ih =>
    intro acc
    obtain ⟨d, hd⟩ := h1 acc x
    obtain ⟨s, hs⟩ := ih (step acc x)
    exact ⟨d ++ s, by rw [List.foldl_cons, hs, hd, List.append_assoc]⟩

/-- If an update loop ends with an empty change list, no iteration
touched the state. -/
theorem foldl_fst_of_snd_nil {σ δ β : Type} (step : σ × List δ → β → σ × List δ)
    (h1 : ∀ acc line, ∃ d, (step acc line).2 = acc.2 ++ d)
    (h2 : ∀ (st : σ) (cs : List δ) (line : β),
        (step (st, cs) line).2 = cs → (step (st, cs) line).1 = st) :
    ∀ (l : List β) (st : σ),
      (l.foldl step (st, [])).2 = [] → (l.foldl step (st, [])).1 = st := by
  intro l
  induction l with
  | nil => intro st _; rfl
  | cons x xs ih =>
    intro st hnil
    obtain ⟨d, hd⟩ := h1 (st, []) x
    simp only [List.nil_append] at hd
    rcases eq_or_ne d [] with hdnil | hdne
    · have hsnd : (step (st, []) x).2 = [] := by rw [hd, hdnil]
      have hx : step (st, []) x = (st, []) := by
        rw [Prod.ext_iff]
        exact ⟨h2 st [] x hsnd, hsnd⟩
      rw [List.foldl_cons, hx] at hnil ⊢
      exact ih st hnil
    · exfalso
      obtain ⟨s, hs⟩ := foldl_snd_extends step h1 xs (step (st, []) x)
      rw [List.foldl_cons] at hnil
      rw [hs, hd] at hnil
      rw [List.append_eq_nil] at hnil
      exact hdne hnil.1

theorem routingLineStep_extends (sock : Owner)
    (acc : VHState × List (Nat × Nat)) (line : String) :
    ∃ d, (routingLineStep sock acc line).2 = acc.2 ++ d := by
  simp only [routingLineStep]
  split
  · split
    · split
      · exact ⟨_, rfl⟩
      · exact ⟨[], (List.append_nil _).symm⟩
    · exact ⟨[], (List.append_nil _).symm⟩
  · exact ⟨[], (List.append_nil _).symm⟩

theorem routingLineStep_fst (sock : Owner) (st : VHState)
    (cs : List (Nat × Nat)) (line : String)
    (h : (routingLineStep sock (st, cs) line).2 = cs) :
    (routingLineStep sock (st, cs) line).1 = st := by
  revert h
  simp only [routingLineStep]
  split
  · split
    · split
      · intro h; simp at h
      · intro _; rfl
    · intro _; rfl
  · intro _; rfl

theorem lockOpApply_none (sock : Owner) (st : VHState) (o : Nat) (u : String)
    (h : (lockOpApply sock st o u).2 = none) : (lockOpApply sock st o u).1 = st := by
  revert h
  simp only [lockOpApply]
  split
  · intro h; simp at h
  · split
    · split
      · intro h; simp at h
      · intro _; rfl
    · split
      · intro h; simp at h
      · intro _; rfl

theorem lockLineStep_extends (sock : Owner) (acc : VHState × List Nat)
    (line : String) :
    ∃ d, (lockLineStep sock acc line).2 = acc.2 ++ d := by
  simp only [lockLineStep]
  split
  · split
    · split
      · split
        · exact ⟨_, rfl⟩
        · exact ⟨[], (List.append_nil _).symm⟩
      · exact ⟨[], (List.append_nil _).symm⟩
    · exact ⟨[], (List.append_nil _).symm⟩
  · exact ⟨[], (List.append_nil _).symm⟩

theorem lockLineStep_fst (sock : Owner) (st : VHState) (cs : List Nat)
    (line : String) (h : (lockLineStep sock (st, cs) line).2 = cs) :
    (lockLineStep sock (st, cs) line).1 = st := by
  revert h
  simp only [lockLineStep]
  split
  · split
    · split
      · split
        next heq => intro h; simp at h
        next heq => intro _; exact lockOpApply_none _ _ _ _ heq
      · intro _; rfl
    · intro _; rfl
  · intro _; rfl

theorem inLabelLineStep_extends (acc : VHState × List (Nat × String))
    (line : String) :
    ∃ d, (inLabelLineStep acc line).2 = acc.2 ++ d := by
  simp only [inLabelLineStep]
  split
  · split
    · exact ⟨_, rfl⟩
    · exact ⟨[], (List.append_nil _).symm⟩
  · exact ⟨[], (List.append_nil _).symm⟩

theorem inLabelLineStep_fst (st : VHState) (cs : List (Nat × String))
    (line : String) (h : (inLabelLineStep (st, cs) line).2 = cs) :
    (inLabelLineStep (st, cs) line).1 = st := by
  revert h
  simp only [inLabelLineStep]
  split
  · split
    · intro h; simp at h
    · intro _; rfl
  · intro _; rfl

theorem outLabelLineStep_extends (acc : VHState × List (Nat × String))
    (line : String) :
    ∃ d, (outLabelLineStep acc line).2 = acc.2 ++ d := by
  simp only [outLabelLineStep]
  split
  · split
    · exact ⟨_, rfl⟩
    · exact ⟨[], (List.append_nil _).symm⟩
  · exact ⟨[], (List.append_nil _).symm⟩

theorem outLabelLineStep_fst (st : VHState) (cs : List (Nat × String))
    (line : String) (h : (outLabelLineStep (st, cs) line).2 = cs) :
    (outLabelLineStep (st, cs) line).1 = st := by
  revert h
  simp only [outLabelLineStep]
  split
  · split
    · intro h; simp at h
    · intro _; rfl
  · intro _; rfl

theorem applyRouting_fst_of_nil (sock : Owner) (st : VHState)
    (dataLines : List String) (h : (applyRouting sock st dataLines).2 = []) :
    (applyRouting sock st dataLines).1 = st :=
  foldl_fst_of_snd_nil _ (routingLineStep_extends sock)
    (routingLineStep_fst sock) dataLines st h

theorem applyLocks_fst_of_nil (sock : Owner) (st : VHState)
    (dataLines : List String) (h : (applyLocks sock st dataLines).2 = []) :
    (applyLocks sock st dataLines).1 = st :=
  foldl_fst_of_snd_nil _ (lockLineStep_extends sock)
    (lockLineStep_fst sock) dataLines st h

theorem applyInLabels_fst_of_nil (st : VHState) (dataLines : List String)
    (h : (applyInLabels st dataLines).2 = []) :
    (applyInLabels st dataLines).1 = st :=
  foldl_fst_of_snd_nil _ inLabelLineStep_extends inLabelLineStep_fst
    dataLines st h

theorem applyOutLabels_fst_of_nil (st : VHState) (dataLines : List String)
    (h : (applyOutLabels st dataLines).2 = []) :
    (applyOutLabels st dataLines).1 = st :=
  foldl_fst_of_snd_nil _ outLabelLineStep_extends outLabelLineStep_fst
    dataLines st h

theorem closeFold_fields (sock : Nat) :
    ∀ (l : List Nat) (st : VHState) (cs : List Nat),
      (l.foldl (closeStep sock) (st, cs)).1.inputs = st.inputs ∧
      (l.foldl (closeStep sock) (st, cs)).1.outputs = st.outputs ∧
      (l.foldl (closeStep sock) (st, cs)).1.routing = st.routing := by
  intro l
  induction l with
  | nil => exact fun st cs => ⟨rfl, rfl, rfl⟩
  | cons x xs ih =>
    intro st cs
    rw [List.foldl_cons]
    by_cases hx : st.lockOwners x = some (Owner.conn sock)
    · rw [show closeStep sock (st, cs) x =
          ({st with lockOwners := updMap st.lockOwners x none}, cs ++ [x]) from by
        simp [closeStep, hx]]
      exact ih _ _
    · rw [show closeStep sock (st, cs) x = (st, cs) from by simp [closeStep, hx]]
      exact ih _ _

theorem closeFold_lockOwners (sock : Nat) :
    ∀ (l : List Nat) (st : VHState) (cs : List Nat) (j : Nat),
      (l.foldl (closeStep sock) (st, cs)).1.lockOwners j =
        if j ∈ l ∧ st.lockOwners j = some (Owner.conn sock) then none
        else st.lockOwners j := by
  intro l
  induction l with
  | nil => intro st cs j; simp
  | cons x xs ih =>
    intro st cs j
    rw [List.foldl_cons]
    by_cases hx : st.lockOwners x = some (Owner.conn sock)
    · rw [show closeStep sock (st, cs) x =
          ({st with lockOwners := updMap st.lockOwners x none}, cs ++ [x]) from by
        simp [closeStep, hx]]
      rw [ih]
      by_cases hj : j = x
      · subst hj
        simp [updMap, hx]
      · simp only [updMap, if_neg hj, List.mem_cons]
        by_cases hjm : j ∈ xs <;> simp [hjm, hj]
    · rw [show closeStep sock (st, cs) x = (st, cs) from by simp [closeStep, hx]]
      rw [ih]
      by_cases hj : j = x
      · subst hj
        simp [hx]
      · simp only [List.mem_cons]
        by_cases hjm : j ∈ xs <;> simp [hjm, hj]

theorem closeFold_changes (sock : Nat) :
    ∀ (l : List Nat), l.Nodup → ∀ (st : VHState) (cs : List Nat),
      (l.foldl (closeStep sock) (st, cs)).2 =
        cs ++ l.filter (fun i => decide (st.lockOwners i = some (Owner.conn sock))) := by
  intro l
  induction l with
  | nil => intro _ st cs; simp
  | cons x xs ih =>
    intro hnd st cs
    obtain ⟨hx_mem, hxs⟩ := List.nodup_cons.mp hnd
    rw [List.foldl_cons]
    by_cases hx : st.lockOwners x = some (Owner.conn sock)
    · rw [show closeStep sock (st, cs) x =
          ({st with lockOwners := updMap st.lockOwners x none}, cs ++ [x]) from by
        simp [closeStep, hx]]
      rw [ih hxs]
      have hf : List.filter
          (fun i => decide (updMap st.lockOwners x none i = some (Owner.conn sock))) xs
          = List.filter (fun i => decide (st.lockOwners i = some (Owner.conn sock))) xs := by
        apply List.filter_congr
        intro a ha
        have hax : a ≠ x := fun hh => hx_mem (hh ▸ ha)
        simp [updMap, hax]
      rw [List.filter_cons_of_pos (by simp [hx])]
      rw [show ({st with lockOwners := updMap st.lockOwners x none} : VHState).lockOwners
          = updMap st.lockOwners x none from rfl, hf]
      simp
    · rw [show closeStep sock (st, cs) x = (st, cs) from by simp [closeStep, hx]]
      rw [ih hxs]
      rw [List.filter_cons_of_neg (by simp [hx])]

theorem handleClose_lockOwners (st : VHState) (sock : Nat) (j : Nat) :
    (handleClose st sock).1.lockOwners j =
      if j < st.outputs ∧ st.lockOwners j = some (Owner.conn sock) then none
      else st.lockOwners j := by
  have h := closeFold_lockOwners sock (List.range st.outputs) st [] j
  simp only [List.mem_range] at h
  simp only [handleClose]
  split
  · exact h
  · exact h

theorem handleClose_changes (st : VHState) (sock : Nat) :
    ((List.range st.outputs).foldl (closeStep sock) (st, [])).2 = freedBy st sock := by
  rw [closeFold_changes sock _ (List.nodup_range _) st []]
  rfl

end VH

/-! ## GV Native server (`src/src/gvnative-server.js` lines 1-1084):
SOH/EOT framing, ASCII hex checksum, HT-separated parameters. -/

namespace GV

def SOH : Char := '\x01'
def EOT : Char := '\x04'
def HT : Char := '\x09'

/-- `calculateChecksum` (lines 236-243): negative byte sum mod 256. -/
def calculateChecksum (body : List Char) : Nat :=
  (256 - (body.foldl (fun s c => s + c.toNat) 0) % 256) % 256

/-- One hex digit as produced by JS `toString(16)` (lowercase). -/
def hexDigit (n : Nat) : Char :=
  if n < 10 then Char.ofNat ('0'.toNat + n) else Char.ofNat ('a'.toNat + (n - 10))

/-- JS `n.toString(16)`, fuel-indexed to stay structurally recursive
(`hexStr` passes fuel `n`, which always suffices since the argument is
divided by 16 each step). -/
def hexStrF : Nat → Nat → List Char
  | 0, n => [hexDigit n]
  | fuel + 1, n => if n < 16 then [hexDigit n] else hexStrF fuel (n / 16) ++ [hexDigit (n % 16)]

def hexStr (n : Nat) : List Char := hexStrF n n

/-- JS `s.padStart(n, c)` on character lists. -/
def jsPadStartChars (l : List Char) (n : Nat) (c : Char) : List Char :=
  List.replicate (n - l.length) c ++ l

/-- `checksum.toString(16).toUpperCase().padStart(2, '0')` (line 263). -/
def checksumChars (body : List Char) : List Char :=
  jsPadStartChars ((hexStr (calculateChecksum body)).map Char.toUpper) 2 '0'

/-- The body built by `buildMessage` (lines 245-258): `N`, `0`, the two
command characters, each parameter preceded by `HT`, and a trailing `HT`
when there is at least one parameter. -/
def buildBody (c1 c2 : Char) (params : List (List Char)) : List Char :=
  ['N', '0', c1, c2] ++ (params.map (fun p => HT :: p)).flatten ++
    (if params.isEmpty then [] else [HT])

/-- `buildMessage` (lines 245-272): SOH, body, checksum hex, EOT. -/
def buildMessage (c1 c2 : Char) (params : List (List Char)) : List Char :=
  let body := buildBody c1 c2 params
  SOH :: (body ++ checksumChars body) ++ [EOT]

/-- A parsed message (lines 219-223); the command is kept as its two
characters. -/
structure GVMsg where
  seqFlag : Char
  c1 : Char
  c2 : Char
  params : List (List Char)
deriving DecidableEq

/-- `parseParams` (lines 226-234): split on HT and drop empty pieces. -/
def parseParams (data : List Char) : List (List Char) :=
  if data.isEmpty then []
  else (data.splitOn HT).filter (fun p => !p.isEmpty)

/-- `parseMessage` (lines 188-224).  The checksum is recomputed, but a
mismatch only logs a console warning and the message is still processed,
so the parse result does not depend on it. -/
def parseMessage (data : List Char) : Option GVMsg :=
  if data.length < 6 then none
  else if data.getD 0 ' ' ≠ 'N' then none
  else
    some { seqFlag := data.getD 1 ' ', c1 := data.getD 2 ' ', c2 := data.getD 3 ' ',
           params := parseParams ((data.drop 4).take (data.length - 6)) }

/-- The `processBuffer` framing loop (lines 152-186), fuel-indexed: find
SOH, find EOT from index 1, hand the bytes in between to the parser.
Every iteration consumes at least one byte, so fuel `buffer.length` (used
by `extractFrames`) cannot run out. -/
def extractFramesF : Nat → List Char → List (List Char) × List Char
  | 0, buffer => ([], buffer)
  | fuel + 1, buffer =>
    if buffer.length < 6 then ([], buffer)
    else
      match jsIndexOf buffer SOH with
      | none => ([], [])
      | some sohPos =>
        let b := buffer.drop sohPos
        match (jsIndexOf (b.drop 1) EOT).map (· + 1) with
        | none => ([], b)
        | some eotPos =>
          let msg := (b.drop 1).take (eotPos - 1)
          let r := extractFramesF fuel (b.drop (eotPos + 1))
          (msg :: r.1, r.2)

def extractFrames (buffer : List Char) : List (List Char) × List Char :=
  extractFramesF buffer.length buffer

theorem extractFramesF_nil (fuel : Nat) : extractFramesF fuel [] = ([], []) := by
  cases fuel <;> simp [extractFramesF]

theorem hexStrF_of_lt (fuel n : Nat) (h : n < 16) : hexStrF fuel n = [hexDigit n] := by
  cases fuel <;> simp [hexStrF, h]

theorem calculateChecksum_lt (body : List Char) : calculateChecksum body < 256 :=
  Nat.mod_lt _ (by norm_num)

theorem hexStr_length_le (n : Nat) (h : n < 256) : (hexStr n).length ≤ 2 := by
  by_cases h16 : n < 16
  · rw [hexStr, hexStrF_of_lt _ _ h16]
    simp
  · have h1 : 1 ≤ n := by omega
    obtain ⟨k, hk⟩ : ∃ k, n = k + 1 := ⟨n - 1, by omega⟩
    rw [hexStr, hk]
    rw [show hexStrF (k + 1) (k + 1) =
        hexStrF k ((k + 1) / 16) ++ [hexDigit ((k + 1) % 16)] from by
      simp [hexStrF, hk ▸ h16]]
    rw [hexStrF_of_lt _ _ (by omega)]
    simp

theorem checksumChars_length (body : List Char) :
    (checksumChars body).length = 2 := by
  have h := hexStr_length_le _ (calculateChecksum_lt body)
  simp only [checksumChars, jsPadStartChars, List.length_append,
    List.length_replicate, List.length_map]
  omega

theorem hexStrF_mem (fuel n : Nat) (hfn : n ≤ fuel ∨ n < 16) :
    ∀ c ∈ hexStrF fuel n, ∃ m, m < 16 ∧ c = hexDigit m := by
  induction fuel generalizing n with
  | zero =>
    intro c hc
    have hn : n < 16 := by omega
    rw [hexStrF] at hc
    simp at hc
    exact ⟨n, hn, hc⟩
  | succ fuel ih =>
    intro c hc
    by_cases h16 : n < 16
    · rw [hexStrF, if_pos h16] at hc
      simp at hc
      exact ⟨n, h16, hc⟩
    · rw [hexStrF, if_neg h16] at hc
      rw [List.mem_append] at hc
      rcases hc with hc | hc
      · exact ih (n / 16) (by omega) c hc
      · simp at hc
        exact ⟨n % 16, Nat.mod_lt _ (by norm_num), hc⟩

theorem hexDigit_toUpper_ne_eot : ∀ m, m < 16 → (hexDigit m).toUpper ≠ EOT := by
  decide

theorem checksumChars_no_eot (body : List Char) :
    ∀ c ∈ checksumChars body, c ≠ EOT := by
  intro c hc
  simp only [checksumChars, jsPadStartChars, List.mem_append,
    List.mem_replicate, List.mem_map] at hc
  rcases hc with ⟨_, hc⟩ | ⟨d, hd, hc⟩
  · subst hc; decide
  · obtain ⟨m, hm, hdm⟩ := hexStrF_mem _ _ (Or.inl le_rfl) d hd
    subst hdm
    subst hc
    exact hexDigit_toUpper_ne_eot m hm

theorem buildBody_no_eot (c1 c2 : Char) (params : List (List Char))
    (hc1 : c1 ≠ EOT) (hc2 : c2 ≠ EOT) (hp : ∀ p ∈ params, EOT ∉ p) :
    EOT ∉ buildBody c1 c2 params := by
  intro hmem
  simp only [buildBody, List.mem_append, List.mem_cons, List.mem_flatten,
    List.mem_map] at hmem
  rcases hmem with ((h | h | h | h | h) | ⟨l, ⟨p, hpmem, hpl⟩, hl⟩) | h
  · exact absurd h.symm (by decide)
  · exact absurd h.symm (by decide)
  · exact hc1 h.symm
  · exact hc2 h.symm
  · simp at h
  · subst hpl
    rcases List.mem_cons.mp hl with h | h
    · exact absurd h (by decide)
    · exact hp p hpmem h
  · split at h
    · simp at h
    · rcases List.mem_cons.mp h with h | h
      · exact absurd h (by decide)
      · simp at h

theorem jsIndexOf_append_self {α : Type} [DecidableEq α] (l : List α) (x : α)
    (r : List α) (h : x ∉ l) : jsIndexOf (l ++ x :: r) x = some l.length := by
  induction l with
  | nil => simp [jsIndexOf]
  | cons a as ih =>
    have hax : ¬ a = x := fun hh => h (by simp [hh])
    have h2 : x ∉ as := fun hm => h (List.mem_cons_of_mem _ hm)
    simp [jsIndexOf, hax, ih h2]

theorem extractFramesF_buildMessage (fuel : Nat) (c1 c2 : Char)
    (params : List (List Char)) (hc1 : c1 ≠ EOT) (hc2 : c2 ≠ EOT)
    (hp : ∀ p ∈ params, EOT ∉ p) :
    extractFramesF (fuel + 1) (buildMessage c1 c2 params) =
      ([buildBody c1 c2 params ++ checksumChars (buildBody c1 c2 params)], []) := by
  obtain ⟨D, hD⟩ : ∃ D, buildBody c1 c2 params ++
      checksumChars (buildBody c1 c2 params) = D := ⟨_, rfl⟩
  have hDeot : EOT ∉ D := by
    rw [← hD]
    intro hmem
    rcases List.mem_append.mp hmem with h | h
    · exact buildBody_no_eot c1 c2 params hc1 hc2 hp h
    · exact checksumChars_no_eot _ _ h rfl
  have hDlen : 6 ≤ D.length := by
    rw [← hD]
    rw [List.length_append, checksumChars_length]
    simp only [buildBody, List.length_append, List.length_cons]
    omega
  have hbuild : buildMessage c1 c2 params = SOH :: (D ++ [EOT]) := by
    simp only [buildMessage, ← hD]
    rfl
  rw [hbuild]
  simp only [extractFramesF]
  rw [if_neg (by simp only [List.length_cons, List.length_append]; omega)]
  rw [jsIndexOf_cons_self]
  simp only [List.drop_zero, List.drop_succ_cons]
  rw [jsIndexOf_append_self D EOT [] hDeot]
  simp only [Option.map_some']
  rw [show D.length + 1 - 1 = D.length from by omega]
  rw [List.take_left]
  have hdrop : List.drop (D.length + 1) (D ++ [EOT]) = [] := by
    apply List.drop_eq_nil_of_le
    simp
  rw [hdrop, extractFramesF_nil, hD]

/-- GV Native framing round trip: the frame built by `buildMessage` is
recovered whole (body plus checksum characters) by the `processBuffer`
scanner. -/
theorem extractFrames_buildMessage (c1 c2 : Char) (params : List (List Char))
    (hc1 : c1 ≠ EOT) (hc2 : c2 ≠ EOT) (hp : ∀ p ∈ params, EOT ∉ p) :
    extractFrames (buildMessage c1 c2 params) =
      ([buildBody c1 c2 params ++ checksumChars (buildBody c1 c2 params)], []) := by
  obtain ⟨k, hk⟩ : ∃ k, (buildMessage c1 c2 params).length = k + 1 := by
    refine ⟨(buildMessage c1 c2 params).length - 1, ?_⟩
    simp only [buildMessage]
    simp
  rw [extractFrames, hk]
  exact extractFramesF_buildMessage k c1 c2 params hc1 hc2 hp

theorem region_intercalate (params : List (List Char)) (h : params ≠ []) :
    (params.map (fun p => HT :: p)).flatten ++ [HT] =
      [HT].intercalate ([] :: params ++ [[]]) := by
  induction params with
  | nil => exact absurd rfl h
  | cons p ps ih =>
    cases ps with
    | nil => simp [List.intercalate]
    | cons q qs =>
      have hr := ih (by simp)
      simp only [List.intercalate, List.map_cons, List.flatten_cons,
        List.cons_append, List.nil_append, List.intersperse_cons_cons,
        List.append_assoc] at hr ⊢
      rw [hr]

theorem parseParams_region (params : List (List Char)) (h : params ≠ [])
    (hp : ∀ p ∈ params, p ≠ [] ∧ HT ∉ p) :
    parseParams ((params.map (fun p => HT :: p)).flatten ++ [HT]) = params := by
  rw [parseParams, if_neg (by simp)]
  rw [region_intercalate params h]
  rw [List.splitOn_intercalate _ HT
    (by
      intro l hl
      rcases List.mem_cons.mp hl with hl | hl
      · subst hl; simp
      · rcases List.mem_append.mp hl with hl | hl
        · exact (hp l hl).2
        · simp at hl
          subst hl; simp)
    (by simp)]
  have hfilter : List.filter (fun p => !p.isEmpty) ([] :: params ++ [[]]) = params := by
    have h1 : List.filter (fun p => !p.isEmpty) params = params :=
      List.filter_eq_self.mpr (fun p hp2 => by simp [List.isEmpty_iff, (hp p hp2).1])
    simp [List.filter_append, h1]
  rw [hfilter]

/-- GV Native parse round trip: reading back the body plus checksum of a
built message recovers the sequence flag `0`, the command characters and
the parameter list. -/
theorem parseMessage_buildMessage (c1 c2 : Char) (params : List (List Char))
    (hp : ∀ p ∈ params, p ≠ [] ∧ HT ∉ p) :
    parseMessage (buildBody c1 c2 params ++ checksumChars (buildBody c1 c2 params)) =
      some ⟨'0', c1, c2, params⟩ := by
  obtain ⟨R, hR⟩ : ∃ R, (params.map (fun p => HT :: p)).flatten ++
      (if params.isEmpty then [] else [HT]) = R := ⟨_, rfl⟩
  obtain ⟨ck, hck⟩ : ∃ ck, checksumChars (buildBody c1 c2 params) = ck := ⟨_, rfl⟩
  have hcklen : ck.length = 2 := by rw [← hck]; exact checksumChars_length _
  have hD : buildBody c1 c2 params ++ checksumChars (buildBody c1 c2 params)
      = 'N' :: '0' :: c1 :: c2 :: (R ++ ck) := by
    rw [hck, ← hR]
    simp [buildBody]
  rw [hD]
  rw [parseMessage]
  rw [if_neg (by simp only [List.length_cons, List.length_append]; omega)]
  rw [if_neg (by simp)]
  simp only [List.getD_cons_succ, List.getD_cons_zero, List.drop_succ_cons,
    List.drop_zero]
  have hlen : ('N' :: '0' :: c1 :: c2 :: (R ++ ck)).length - 6 = R.length := by
    simp only [List.length_cons, List.length_append]
    omega
  rw [hlen, List.take_left]
  have hparams : parseParams R = params := by
    by_cases hnil : params.isEmpty
    · have : params = [] := List.isEmpty_iff.mp hnil
      subst this
      simp only [List.map_nil, List.flatten_nil, List.nil_append,
        List.isEmpty_nil, if_pos rfl] at hR
      rw [← hR]
      simp [parseParams]
    · have hne : params ≠ [] := fun hh => hnil (by simp [hh])
      rw [if_neg (by simpa using hne)] at hR
      rw [← hR]
      exact parseParams_region params hne hp
  rw [hparams]

/-! ### GV Native label handling (for the fixed-width claim).  The
constructor truncates every label to 8 characters but does not pad it
(lines 77-84), and `setInputLabel`/`setOutputLabel` (lines 982-998) do
the same. -/

def defaultInputLabels : List String :=
  ["CAM 1", "CAM 2", "CAM 3", "CAM 4",
   "GFX", "VTR 1", "VTR 2", "LIVE",
   "SAT RX", "STU A", "STU B", "RMT 1",
   "EDIT 1", "EDIT 2", "COLOR", "BOOTH",
   "SVR 1", "SVR 2", "SVR 3", "SVR 4"]

def defaultOutputLabels : List String :=
  ["PGM", "PVW", "MV 1", "MV 2",
   "TX 1", "TX 2", "REC 1", "REC 2",
   "EDT1 I", "EDT2 I", "CLR IN", "QC MON",
   "MCR", "STREAM", "CONF", "ARCH",
   "STU MN", "GRN RM", "LOBBY", "WEB"]

/-- JS `s.padStart(n, c)` on strings. -/
def jsPadStart (s : String) (n : Nat) (c : Char) : String :=
  ⟨List.replicate (n - s.data.length) c ++ s.data⟩

/-- `(defaultInputLabels[i] || `Input${pad3(i+1)}`).substring(0, 8)`
(line 80). -/
def initInputLabel (i : Nat) : String :=
  jsSubstring0
    (jsOrStr (defaultInputLabels.get? i)
      ("Input" ++ jsPadStart (toString (i + 1)) 3 '0')) 8

/-- `(defaultOutputLabels[i] || `Output${pad2(i+1)}`).substring(0, 8)`
(line 83). -/
def initOutputLabel (i : Nat) : String :=
  jsSubstring0
    (jsOrStr (defaultOutputLabels.get? i)
      ("Output" ++ jsPadStart (toString (i + 1)) 2 '0')) 8

/-- The label-relevant fields of `GVNativeServer` (constructor lines
28-91). -/
structure GVState where
  inputs : Nat
  outputs : Nat
  levels : Nat
  inputLabels : Nat → Option String
  outputLabels : Nat → Option String

def initState (inputs outputs levels : Nat) : GVState :=
  { inputs := inputs, outputs := outputs, levels := levels
    inputLabels := fun i => if i < inputs then some (initInputLabel i) else none
    outputLabels := fun i => if i < outputs then some (initOutputLabel i) else none }

/-- `setInputLabel` stores `label.substring(0, 8)` (line 984). -/
def storedInputLabel (label : String) : String := jsSubstring0 label 8

/-- `toHex4` (lines 327-329). -/
def toHex4 (n : Nat) : List Char :=
  jsPadStartChars ((hexStr n).map Char.toUpper) 4 '0'

/-- `toLevelBitmap` applied to the level count (lines 332-346): bits
`0 .. levels-1` set, rendered as 8 upper-case hex digits. -/
def toLevelBitmap (levels : Nat) : List Char :=
  jsPadStartChars ((hexStr (2 ^ levels - 1)).map Char.toUpper) 8 '0'

/-- Template-literal rendering of a possibly-missing label. -/
def tplLabel (o : Option String) : String :=
  match o with
  | some s => s
  | none => "undefined"

/-- The parameter list of the `sendDestNames` response (lines 434-450):
`D`, the destination count in hex, then per destination the name (sent
verbatim, with no padding), optionally its index, the `N` tie flag and
the level bitmap. -/
def sendDestNamesParams (st : GVState) (withIndex : Bool) : List (List Char) :=
  let levelBitmap := toLevelBitmap st.levels
  let entries := (List.range st.outputs).foldl
    (fun (acc : List (List Char)) i =>
      let name := (tplLabel (st.outputLabels i)).data
      if withIndex then acc ++ [name, toHex4 i, ['N'], levelBitmap]
      else acc ++ [name, ['N'], levelBitmap]) []
  [['D'], (hexStr st.outputs).map Char.toUpper] ++ entries

/-- `sendDestNames` (lines 434-450): the `NQ` response frame. -/
def sendDestNames (st : GVState) (withIndex : Bool) : List Char :=
  buildMessage 'N' 'Q' (sendDestNamesParams st withIndex)

end GV

/-! ## VideoHub wire codec: blocks are newline-joined lines terminated by
a blank line; the receive path (`handleData` of the controllers, and the
same loop in `VideoHubServer.handleConnection`) splits the byte stream on
`"\n\n"`, keeps the trailing incomplete piece buffered, and hands each
complete block on, trimmed and split into lines. -/

namespace VHWire

/-- Does the separator occur at the head of the buffer (the search step of
JS `String.prototype.split` with a string separator)? -/
def sepAt : List Char → List Char → Bool
  | [], _ => true
  | _ :: _, [] => false
  | s :: ss, c :: cs => s == c && sepAt ss cs

/-- JS `buffer.split("\n\n")`, fuel-indexed (each step consumes at least
one character, so the fuel `l.length` passed by `splitNlNl` suffices). -/
def splitNlNlF : Nat → List Char → List (List Char)
  | _, [] => [[]]
  | 0, l => [l]
  | fuel + 1, c :: cs =>
    if sepAt ['\n', '\n'] (c :: cs) then
      [] :: splitNlNlF fuel ((c :: cs).drop 2)
    else
      match splitNlNlF fuel cs with
      | [] => [[c]]
      | chunk :: rest => (c :: chunk) :: rest

def splitNlNl (l : List Char) : List (List Char) := splitNlNlF l.length l

/-- JS `block.trim()` on character lists. -/
def trimC (l : List Char) : List Char :=
  ((l.dropWhile (fun c => jsIsSpace c)).reverse.dropWhile
      (fun c => jsIsSpace c)).reverse

/-- The receive path for one data chunk: `buffer.split('\n\n')`, pop the
incomplete tail, and for each block with non-blank trim hand
`block.trim().split('\n')` to `processBlock` / `processCommand`. -/
def decodeBlocks (buffer : List Char) : List (List (List Char)) × List Char :=
  let chunks := splitNlNl buffer
  let rest := chunks.getLast?.getD []
  let blocks := chunks.dropLast
  (blocks.filterMap (fun b =>
      let t := trimC b
      if t.isEmpty then none else some (t.splitOn '\n')), rest)

/-- A block as the server writes it: lines joined by `\n` plus the
blank-line terminator (the shape of `getFullStatus`, every broadcast
renderer, and the `ACK`/`NAK` replies). -/
def encodeBlock (lines : List (List Char)) : List Char :=
  List.intercalate ['\n'] lines ++ ['\n', '\n']

/-- No two adjacent newlines and no trailing newline: under this scan
condition the `"\n\n"` search first fires at the terminator. -/
def noBlank : List Char → Bool
  | [] => true
  | [c] => !(c == '\n')
  | c :: d :: rest => !(c == '\n' && d == '\n') && noBlank (d :: rest)

theorem noBlank_cons_cons (c d : Char) (rest : List Char) :
    noBlank (c :: d :: rest) = true ↔
      (¬ (c = '\n' ∧ d = '\n')) ∧ noBlank (d :: rest) = true := by
  rw [show noBlank (c :: d :: rest) =
      (!(c == '\n' && d == '\n') && noBlank (d :: rest)) from rfl]
  simp
  tauto

theorem noBlank_of_no_nl : ∀ (l : List Char), '\n' ∉ l → noBlank l = true := by
  intro l
  induction l with
  | nil => intro _; rfl
  | cons c l2 ih =>
    intro h
    have hc : ¬ c = '\n' := fun hh => h (by simp [hh])
    have h2 : '\n' ∉ l2 := fun hm => h (List.mem_cons_of_mem _ hm)
    cases l2 with
    | nil => simp [noBlank, hc]
    | cons d l3 =>
      exact (noBlank_cons_cons c d l3).mpr ⟨fun hh => hc hh.1, ih h2⟩

theorem noBlank_tail : ∀ (c : Char) (l : List Char),
    noBlank (c :: l) = true → noBlank l = true := by
  intro c l h
  cases l with
  | nil => rfl
  | cons d l2 => exact ((noBlank_cons_cons c d l2).mp h).2

theorem noBlank_append : ∀ (l : List Char), '\n' ∉ l →
    ∀ rest, noBlank rest = true → noBlank (l ++ rest) = true := by
  intro l
  induction l with
  | nil => intro _ rest h; simpa using h
  | cons c l2 ih =>
    intro h rest hrest
    have hc : ¬ c = '\n' := fun hh => h (by simp [hh])
    have h2 : '\n' ∉ l2 := fun hm => h (List.mem_cons_of_mem _ hm)
    rw [List.cons_append]
    cases hshape : l2 ++ rest with
    | nil => simp [noBlank, hc]
    | cons e es =>
      refine (noBlank_cons_cons c e es).mpr ⟨fun hh => hc hh.1, ?_⟩
      rw [← hshape]
      exact ih h2 rest hrest

theorem intercalate_cons₂ (s : List Char) (a b : List Char) (t : List (List Char)) :
    List.intercalate s (a :: b :: t) = a ++ (s ++ List.intercalate s (b :: t)) := by
  simp [List.intercalate, List.intersperse_cons_cons]

theorem intercalate_ne_nil (m : List Char) (ms : List (List Char)) (hm : m ≠ []) :
    List.intercalate ['\n'] (m :: ms) ≠ [] := by
  cases ms with
  | nil => simpa [List.intercalate] using hm
  | cons q qs =>
    rw [intercalate_cons₂]
    simp [hm]

theorem noBlank_intercalate : ∀ (lines : List (List Char)),
    (∀ l ∈ lines, l ≠ [] ∧ '\n' ∉ l) →
    noBlank (List.intercalate ['\n'] lines) = true := by
  intro lines
  induction lines with
  | nil => intro _; rfl
  | cons l ls ih =>
    intro h
    have hl := h l (by simp)
    cases ls with
    | nil =>
      rw [show List.intercalate ['\n'] [l] = l from by simp [List.intercalate]]
      exact noBlank_of_no_nl l hl.2
    | cons m ms =>
      rw [intercalate_cons₂]
      apply noBlank_append l hl.2
      obtain ⟨hm0, hms⟩ := h m (by simp)
      have hX := ih (fun a ha => h a (List.mem_cons_of_mem _ ha))
      obtain ⟨mc, mrest, hmc⟩ : ∃ mc mrest, m = mc :: mrest := by
        cases m with
        | nil => exact absurd rfl hm0
        | cons a b => exact ⟨a, b, rfl⟩
      have hmcnl : ¬ mc = '\n' := fun hh => hms (by rw [hmc, hh]; simp)
      obtain ⟨Y, hY⟩ : ∃ Y, List.intercalate ['\n'] (m :: ms) =
          mc :: (mrest ++ Y) := by
        cases ms with
        | nil => exact ⟨[], by simp [List.intercalate, hmc]⟩
        | cons q qs =>
          exact ⟨'\n' :: List.intercalate ['\n'] (q :: qs), by
            rw [intercalate_cons₂, hmc]; simp⟩
      rw [List.singleton_append, hY]
      refine (noBlank_cons_cons '\n' mc (mrest ++ Y)).mpr ⟨fun hh => hmcnl hh.2, ?_⟩
      rw [← hY]
      exact hX

theorem splitNlNlF_nil (fuel : Nat) : splitNlNlF fuel [] = [[]] := by
  cases fuel <;> rfl

theorem splitNlNlF_cons (fuel : Nat) (c : Char) (cs : List Char) :
    splitNlNlF (fuel + 1) (c :: cs) =
      if sepAt ['\n', '\n'] (c :: cs) then
        [] :: splitNlNlF fuel ((c :: cs).drop 2)
      else
        match splitNlNlF fuel cs with
        | [] => [[c]]
        | chunk :: rest => (c :: chunk) :: rest := rfl

theorem splitNlNlF_terminator : ∀ (fuel : Nat) (A : List Char),
    A.length + 1 ≤ fuel → noBlank A = true →
    splitNlNlF fuel (A ++ ['\n', '\n']) = [A, []] := by
  intro fuel
  induction fuel with
  | zero => intro A h _; omega
  | succ fuel ih =>
    intro A hlen hok
    cases A with
    | nil =>
      rw [List.nil_append, splitNlNlF_cons, if_pos (by decide)]
      rw [show (['\n', '\n'] : List Char).drop 2 = [] from rfl, splitNlNlF_nil]
    | cons c A2 =>
      have hsep : sepAt ['\n', '\n'] (c :: (A2 ++ ['\n', '\n'])) = false := by
        by_cases hc : c = '\n'
        · subst hc
          cases A2 with
          | nil => simp [noBlank] at hok
          | cons d A3 =>
            have hd : ¬ d = '\n' :=
              fun hh => ((noBlank_cons_cons '\n' d A3).mp hok).1 ⟨rfl, hh⟩
            have hd2 : (('\n' : Char) == d) = false := by
              simp only [beq_eq_false_iff_ne, ne_eq]
              exact fun hh => hd hh.symm
            simp [sepAt, hd2]
        · have hc2 : (('\n' : Char) == c) = false := by
            simp only [beq_eq_false_iff_ne, ne_eq]
            exact fun hh => hc hh.symm
          cases A2 <;> simp [sepAt, hc2]
      rw [List.cons_append, splitNlNlF_cons, if_neg (by simp [hsep])]
      rw [ih A2 (by simp at hlen ⊢; omega) (noBlank_tail c A2 hok)]

/-- VideoHub codec round trip: one encoded block is recovered exactly
(and nothing stays buffered) when its lines are non-blank, contain no
newline, and the block text is its own trim. -/
theorem decodeBlocks_encodeBlock (lines : List (List Char))
    (hne : lines ≠ [])
    (hl : ∀ l ∈ lines, l ≠ [] ∧ '\n' ∉ l)
    (hT : trimC (List.intercalate ['\n'] lines) = List.intercalate ['\n'] lines) :
    decodeBlocks (encodeBlock lines) = ([lines], []) := by
  obtain ⟨A, hA⟩ : ∃ A, List.intercalate ['\n'] lines = A := ⟨_, rfl⟩
  rw [hA] at hT
  have hok : noBlank A = true := hA ▸ noBlank_intercalate lines hl
  have hsplit : splitNlNl (A ++ ['\n', '\n']) = [A, []] := by
    rw [splitNlNl]
    apply splitNlNlF_terminator
    · simp only [List.length_append, List.length_cons, List.length_nil]
      omega
    · exact hok
  have hAne : A.isEmpty = false := by
    obtain ⟨l0, ls, hls⟩ : ∃ l0 ls, lines = l0 :: ls := by
      cases lines with
      | nil => exact absurd rfl hne
      | cons a b => exact ⟨a, b, rfl⟩
    have := intercalate_ne_nil l0 ls (hl l0 (by simp [hls])).1
    rw [← hls, hA] at this
    simp [List.isEmpty_iff, this]
  have hAsplit : A.splitOn '\n' = lines := by
    rw [← hA]
    exact List.splitOn_intercalate lines '\n' (fun l hl2 => (hl l hl2).2) hne
  rw [decodeBlocks, encodeBlock, hA, hsplit]
  simp only [List.getLast?_cons_cons, List.getLast?_singleton, Option.getD_some,
    List.dropLast_cons₂, List.dropLast_single, List.filterMap_cons,
    List.filterMap_nil]
  rw [hT]
  rw [show (if A.isEmpty = true then none
      else some (A.splitOn '\n')) = some (A.splitOn '\n') from by
    rw [hAne]; simp]
  rw [hAsplit]

end VHWire

/-! ## VideoHub controller (the `VideoHubController` class at
`src/src/gvnative-server.js` lines 1088-1564): local mirror, optimistic
writes with pending-change records, NAK-driven rollback.  (The older
controller in `src/src/videohub-controller.js` has no pending-record
tracking; the claims about pending records target this class.) -/

namespace Ctl

/-- A pending optimistic routing record `{output, oldInput, newInput}`
(line 1417); `oldInput` is `none` when the mirror had no entry. -/
structure PendingRoute where
  output : Nat
  oldInput : Option Nat
  newInput : Nat
deriving DecidableEq

/-- A pending optimistic lock record `{output, oldLock, newLock}`
(line 1494). -/
structure PendingLock where
  output : Nat
  oldLock : Option String
  newLock : String
deriving DecidableEq

/-- The mutable fields of `VideoHubController` (constructor lines
1089-1119) that the embedded operations touch. -/
structure CtlState where
  connected : Bool
  inputs : Nat
  outputs : Nat
  routing : Nat → Option Nat
  inputLabels : Nat → Option String
  outputLabels : Nat → Option String
  outputLocks : Nat → Option String
  modelName : String
  friendlyName : String
  uniqueId : String
  pendingRouteChanges : List PendingRoute
  pendingLockChanges : List PendingLock

/-- Events emitted to the UI subscriber. -/
inductive CtlEvent
  | routingChanged (chs : List (Nat × Nat))
  | locksChanged (chs : List (Nat × String))
  | inputLabelsChanged (chs : List (Nat × String))
  | outputLabelsChanged (chs : List (Nat × String))
  | stateUpdated
  | error (msg : String)
deriving DecidableEq

/-- The regex `^(\d+)\s+(\d+)$` of `parseRouting` (line 1350): digits,
whitespace, digits, end of line. -/
def parseRouteLine (line : String) : Option (Nat × Nat) :=
  let ds := line.data.takeWhile Char.isDigit
  let rest := line.data.dropWhile Char.isDigit
  let ws := rest.takeWhile (fun c => jsIsSpace c)
  let ds2 := rest.dropWhile (fun c => jsIsSpace c)
  if ds.isEmpty ∨ ws.isEmpty ∨ ds2.isEmpty ∨ ¬ ds2.all Char.isDigit then none
  else some (digitsVal ds, digitsVal ds2)

/-- The regex `^(\d+)\s+(\S+)$` of `parseLocks` (line 1373): digits,
whitespace, one run of non-whitespace, end of line. -/
def parseLockLine (line : String) : Option (Nat × String) :=
  let ds := line.data.takeWhile Char.isDigit
  let rest := line.data.dropWhile Char.isDigit
  let ws := rest.takeWhile (fun c => jsIsSpace c)
  let tok := rest.dropWhile (fun c => jsIsSpace c)
  if ds.isEmpty ∨ ws.isEmpty ∨ tok.isEmpty ∨ tok.any (fun c => jsIsSpace c) then none
  else some (digitsVal ds, ⟨tok⟩)

/-- One line of `parseRouting` (lines 1349-1363): a matching line first
drops every pending record for that output (the router confirmed its
state), then applies the value if it differs from the mirror. -/
def parseRoutingStep (acc : CtlState × List (Nat × Nat)) (line : String) :
    CtlState × List (Nat × Nat) :=
  match parseRouteLine line with
  | some (output, input) =>
    let st := acc.1
    let st1 := {st with pendingRouteChanges :=
      st.pendingRouteChanges.filter (fun p => p.output != output)}
    if st1.routing output ≠ some input then
      ({st1 with routing := updMap st1.routing output (some input)},
        acc.2 ++ [(output, input)])
    else (st1, acc.2)
  | none => acc

/-- `parseRouting` (lines 1347-1368). -/
def parseRouting (st : CtlState) (lines : List String) :
    CtlState × List CtlEvent :=
  let r := lines.foldl parseRoutingStep (st, [])
  (r.1, if ¬ r.2.isEmpty then [CtlEvent.routingChanged r.2] else [])

/-- One line of `parseLocks` (lines 1372-1386). -/
def parseLocksStep (acc : CtlState × List (Nat × String)) (line : String) :
    CtlState × List (Nat × String) :=
  match parseLockLine line with
  | some (output, lock) =>
    let st := acc.1
    let st1 := {st with pendingLockChanges :=
      st.pendingLockChanges.filter (fun p => p.output != output)}
    if st1.outputLocks output ≠ some lock then
      ({st1 with outputLocks := updMap st1.outputLocks output (some lock)},
        acc.2 ++ [(output, lock)])
    else (st1, acc.2)
  | none => acc

/-- `parseLocks` (lines 1370-1391). -/
def parseLocks (st : CtlState) (lines : List String) :
    CtlState × List CtlEvent :=
  let r := lines.foldl parseLocksStep (st, [])
  (r.1, if ¬ r.2.isEmpty then [CtlEvent.locksChanged r.2] else [])

/-- One line of `parseInputLabels` (lines 1310-1321). -/
def parseInLabelsStep (acc : CtlState × List (Nat × String)) (line : String) :
    CtlState × List (Nat × String) :=
  match parseLabelLine line with
  | some (index, label) =>
    if acc.1.inputLabels index ≠ some label then
      ({acc.1 with inputLabels := updMap acc.1.inputLabels index (some label)},
        acc.2 ++ [(index, label)])
    else acc
  | none => acc

/-- `parseInputLabels` (lines 1309-1326). -/
def parseInputLabels (st : CtlState) (lines : List String) :
    CtlState × List CtlEvent :=
  let r := lines.foldl parseInLabelsStep (st, [])
  (r.1, if ¬ r.2.isEmpty then [CtlEvent.inputLabelsChanged r.2] else [])

/-- One line of `parseOutputLabels` (lines 1329-1340). -/
def parseOutLabelsStep (acc : CtlState × List (Nat × String)) (line : String) :
    CtlState × List (Nat × String) :=
  match parseLabelLine line with
  | some (index, label) =>
    if acc.1.outputLabels index ≠ some label then
      ({acc.1 with outputLabels := updMap acc.1.outputLabels index (some label)},
        acc.2 ++ [(index, label)])
    else acc
  | none => acc

/-- `parseOutputLabels` (lines 1328-1345). -/
def parseOutputLabels (st : CtlState) (lines : List String) :
    CtlState × List CtlEvent :=
  let r := lines.foldl parseOutLabelsStep (st, [])
  (r.1, if ¬ r.2.isEmpty then [CtlEvent.outputLabelsChanged r.2] else [])

/-- One line of `parseDeviceInfo` (lines 1280-1304): split at the first
colon, trim both parts, and dispatch on the key (`parseInt(value) || 0`
maps an unparsable count to 0). -/
def deviceInfoLine (st : CtlState) (line : String) : CtlState :=
  match jsIndexOf line.data ':' with
  | none => st
  | some colonPos =>
    let key := jsTrim ⟨line.data.take colonPos⟩
    let value := jsTrim ⟨line.data.drop (colonPos + 1)⟩
    if key = "Model name" then {st with modelName := value}
    else if key = "Friendly name" then {st with friendlyName := value}
    else if key = "Unique ID" then {st with uniqueId := value}
    else if key = "Video inputs" then
      {st with inputs := ((jsParseInt value).getD 0).toNat}
    else if key = "Video outputs" then
      {st with outputs := ((jsParseInt value).getD 0).toNat}
    else st

/-- `parseDeviceInfo` (lines 1279-1307). -/
def parseDeviceInfo (st : CtlState) (lines : List String) :
    CtlState × List CtlEvent :=
  (lines.foldl deviceInfoLine st, [CtlEvent.stateUpdated])

/-- One pending routing record of the revert loop (lines 1433-1439): a
record with a defined old value is written back to the mirror and pushed
onto the reverted-changes list; a record whose old value was missing is
skipped. -/
def revRouteStep (acc : (Nat → Option Nat) × List (Nat × Nat))
    (p : PendingRoute) : (Nat → Option Nat) × List (Nat × Nat) :=
  match p.oldInput with
  | some old => (updMap acc.1 p.output (some old), acc.2 ++ [(p.output, old)])
  | none => acc

/-- `revertPendingRouteChanges` (lines 1428-1449): roll each pending
record with a defined old value back into the mirror (in order), clear
the pending list, and emit one `routing-changed` with the reverted
values. -/
def revertPendingRouteChanges (st : CtlState) : CtlState × List CtlEvent :=
  if st.pendingRouteChanges.isEmpty then (st, [])
  else
    let r := st.pendingRouteChanges.foldl revRouteStep (st.routing, [])
    ({st with routing := r.1, pendingRouteChanges := []},
      if ¬ r.2.isEmpty then [CtlEvent.routingChanged r.2] else [])

/-- One pending lock record of the revert loop (lines 1456-1462). -/
def revLockStep (acc : (Nat → Option String) × List (Nat × String))
    (p : PendingLock) : (Nat → Option String) × List (Nat × String) :=
  match p.oldLock with
  | some old => (updMap acc.1 p.output (some old), acc.2 ++ [(p.output, old)])
  | none => acc

/-- `revertPendingLockChanges` (lines 1451-1472). -/
def revertPendingLockChanges (st : CtlState) : CtlState × List CtlEvent :=
  if st.pendingLockChanges.isEmpty then (st, [])
  else
    let r := st.pendingLockChanges.foldl revLockStep (st.outputLocks, [])
    ({st with outputLocks := r.1, pendingLockChanges := []},
      if ¬ r.2.isEmpty then [CtlEvent.locksChanged r.2] else [])

/-- `processBlock` (lines 1246-1277).  The trailing initial-state check
only signals the connect promise and is omitted. -/
def processBlock (st : CtlState) (lines : List String) :
    CtlState × List CtlEvent :=
  let header := lines.getD 0 ""
  if header = "PROTOCOL PREAMBLE:" then (st, [])
  else if header = "VIDEOHUB DEVICE:" then parseDeviceInfo st (lines.drop 1)
  else if header = "INPUT LABELS:" then parseInputLabels st (lines.drop 1)
  else if header = "OUTPUT LABELS:" then parseOutputLabels st (lines.drop 1)
  else if header = "VIDEO OUTPUT ROUTING:" then parseRouting st (lines.drop 1)
  else if header = "VIDEO OUTPUT LOCKS:" then parseLocks st (lines.drop 1)
  else if header = "ACK" then
    ({st with pendingRouteChanges := [], pendingLockChanges := []}, [])
  else if header = "NAK" then
    let r1 := revertPendingRouteChanges st
    let r2 := revertPendingLockChanges r1.1
    (r2.1, r1.2 ++ r2.2 ++ [CtlEvent.error "Command rejected by router"])
  else (st, [])

/-- `setRoute` (lines 1406-1426): `none` models the `Not connected`
throw; otherwise the new state, emitted events, and socket writes.  A
value-changing call pushes a pending record and optimistically updates
the mirror before writing the command. -/
def setRoute (st : CtlState) (output input : Nat) :
    Option (CtlState × List CtlEvent × List String) :=
  if ¬ st.connected then none
  else
    let command := "VIDEO OUTPUT ROUTING:\n" ++ toString output ++ " " ++
      toString input ++ "\n\n"
    let oldInput := st.routing output
    if oldInput ≠ some input then
      some ({st with
          pendingRouteChanges :=
            st.pendingRouteChanges ++ [⟨output, oldInput, input⟩],
          routing := updMap st.routing output (some input)},
        [CtlEvent.routingChanged [(output, input)]], [command])
    else some (st, [], [command])

/-- `setLock` (lines 1474-1503): `none` models the two throws; `F`
records the optimistic state as `U`. -/
def setLock (st : CtlState) (output : Nat) (lock : String) :
    Option (CtlState × List CtlEvent × List String) :=
  if ¬ st.connected then none
  else if ¬ (lock = "O" ∨ lock = "U" ∨ lock = "F") then none
  else
    let command := "VIDEO OUTPUT LOCKS:\n" ++ toString output ++ " " ++
      lock ++ "\n\n"
    let oldLock := st.outputLocks output
    let newLockState := if lock = "F" then "U" else lock
    if oldLock ≠ some newLockState then
      some ({st with
          pendingLockChanges :=
            st.pendingLockChanges ++ [⟨output, oldLock, newLockState⟩],
          outputLocks := updMap st.outputLocks output (some newLockState)},
        [CtlEvent.locksChanged [(output, newLockState)]], [command])
    else some (st, [], [command])

/-- The outputs for which a routing block carries an authoritative line
(the lines matched by the `parseRouting` regex). -/
def routeTargets (lines : List String) : List Nat :=
  lines.filterMap (fun l => (parseRouteLine l).map Prod.fst)

/-- The outputs for which a locks block carries an authoritative line. -/
def lockTargets (lines : List String) : List Nat :=
  lines.filterMap (fun l => (parseLockLine l).map Prod.fst)

/-- The `(output, old value)` pairs a revert pass writes back (records
with a missing old value are skipped). -/
def revertedRoutes (ps : List PendingRoute) : List (Nat × Nat) :=
  ps.filterMap (fun p => p.oldInput.map (fun old => (p.output, old)))

def revertedLocks (ps : List PendingLock) : List (Nat × String) :=
  ps.filterMap (fun p => p.oldLock.map (fun old => (p.output, old)))

theorem parseRoutingStep_pending (acc : CtlState × List (Nat × Nat))
    (line : String) :
    (parseRoutingStep acc line).1.pendingRouteChanges =
      match parseRouteLine line with
      | some (o, _) => acc.1.pendingRouteChanges.filter (fun p => p.output != o)
      | none => acc.1.pendingRouteChanges := by
  rcases hpl : parseRouteLine line with _ | ⟨o, i⟩ <;>
    simp only [parseRoutingStep, hpl] <;> try rfl
  split <;> rfl

theorem parseLocksStep_pending (acc : CtlState × List (Nat × String))
    (line : String) :
    (parseLocksStep acc line).1.pendingLockChanges =
      match parseLockLine line with
      | some (o, _) => acc.1.pendingLockChanges.filter (fun p => p.output != o)
      | none => acc.1.pendingLockChanges := by
  rcases hpl : parseLockLine line with _ | ⟨o, s⟩ <;>
    simp only [parseLocksStep, hpl] <;> try rfl
  split <;> rfl

theorem parseRoutingFold_pending :
    ∀ (lines : List String) (st : CtlState) (cs : List (Nat × Nat)),
      (lines.foldl parseRoutingStep (st, cs)).1.pendingRouteChanges =
        st.pendingRouteChanges.filter
          (fun p => decide (p.output ∉ routeTargets lines)) := by
  intro lines
  induction lines with
  | nil =>
    intro st cs
    simp [routeTargets]
  | cons line rest ih =>
    intro st cs
    rw [List.foldl_cons]
    obtain ⟨st1, cs1, hstep⟩ : ∃ a b, parseRoutingStep (st, cs) line = (a, b) :=
      ⟨_, _, rfl⟩
    rw [hstep, ih st1 cs1]
    have hpend := parseRoutingStep_pending (st, cs) line
    rw [hstep] at hpend
    rcases hpl : parseRouteLine line with _ | ⟨o, i⟩
    · rw [hpl] at hpend
      simp only at hpend
      rw [hpend]
      have ht : routeTargets (line :: rest) = routeTargets rest := by
        simp [routeTargets, hpl]
      rw [ht]
    · rw [hpl] at hpend
      simp only at hpend
      rw [hpend, List.filter_filter]
      have ht : routeTargets (line :: rest) = o :: routeTargets rest := by
        simp [routeTargets, hpl]
      rw [ht]
      apply List.filter_congr
      intro p _
      by_cases hpo : p.output = o <;> simp [hpo]

theorem parseLocksFold_pending :
    ∀ (lines : List String) (st : CtlState) (cs : List (Nat × String)),
      (lines.foldl parseLocksStep (st, cs)).1.pendingLockChanges =
        st.pendingLockChanges.filter
          (fun p => decide (p.output ∉ lockTargets lines)) := by
  intro lines
  induction lines with
  | nil =>
    intro st cs
    simp [lockTargets]
  | cons line rest ih =>
    intro st cs
    rw [List.foldl_cons]
    obtain ⟨st1, cs1, hstep⟩ : ∃ a b, parseLocksStep (st, cs) line = (a, b) :=
      ⟨_, _, rfl⟩
    rw [hstep, ih st1 cs1]
    have hpend := parseLocksStep_pending (st, cs) line
    rw [hstep] at hpend
    rcases hpl : parseLockLine line with _ | ⟨o, s⟩
    · rw [hpl] at hpend
      simp only at hpend
      rw [hpend]
      have ht : lockTargets (line :: rest) = lockTargets rest := by
        simp [lockTargets, hpl]
      rw [ht]
    · rw [hpl] at hpend
      simp only at hpend
      rw [hpend, List.filter_filter]
      have ht : lockTargets (line :: rest) = o :: lockTargets rest := by
        simp [lockTargets, hpl]
      rw [ht]
      apply List.filter_congr
      intro p _
      by_cases hpo : p.output = o <;> simp [hpo]

theorem revRouteFold_snd :
    ∀ (ps : List PendingRoute) (f : Nat → Option Nat) (cs : List (Nat × Nat)),
      (ps.foldl revRouteStep (f, cs)).2 = cs ++ revertedRoutes ps := by
  intro ps
  induction ps with
  | nil => intro f cs; simp [revertedRoutes]
  | cons p qs ih =>
    intro f cs
    rw [List.foldl_cons]
    rcases hold : p.oldInput with _ | old
    · rw [show revRouteStep (f, cs) p = (f, cs) from by simp [revRouteStep, hold]]
      rw [ih]
      simp [revertedRoutes, hold]
    · rw [show revRouteStep (f, cs) p =
          (updMap f p.output (some old), cs ++ [(p.output, old)]) from by
        simp [revRouteStep, hold]]
      rw [ih]
      simp [revertedRoutes, hold]

theorem revLockFold_snd :
    ∀ (ps : List PendingLock) (f : Nat → Option String) (cs : List (Nat × String)),
      (ps.foldl revLockStep (f, cs)).2 = cs ++ revertedLocks ps := by
  intro ps
  induction ps with
  | nil => intro f cs; simp [revertedLocks]
  | cons p qs ih =>
    intro f cs
    rw [List.foldl_cons]
    rcases hold : p.oldLock with _ | old
    · rw [show revLockStep (f, cs) p = (f, cs) from by simp [revLockStep, hold]]
      rw [ih]
      simp [revertedLocks, hold]
    · rw [show revLockStep (f, cs) p =
          (updMap f p.output (some old), cs ++ [(p.output, old)]) from by
        simp [revLockStep, hold]]
      rw [ih]
      simp [revertedLocks, hold]

theorem revRouteFold_fst_notmem :
    ∀ (ps : List PendingRoute) (f : Nat → Option Nat) (cs : List (Nat × Nat))
      (j : Nat), j ∉ ps.map (fun p => p.output) →
      (ps.foldl revRouteStep (f, cs)).1 j = f j := by
  intro ps
  induction ps with
  | nil => intro f cs j _; rfl
  | cons p qs ih =>
    intro f cs j hj
    have hjp : j ≠ p.output := fun hh => hj (by simp [hh])
    have hjqs : j ∉ qs.map (fun p => p.output) := fun hh => hj (by simp [hh])
    rw [List.foldl_cons]
    rcases hold : p.oldInput with _ | old
    · rw [show revRouteStep (f, cs) p = (f, cs) from by simp [revRouteStep, hold]]
      exact ih f cs j hjqs
    · rw [show revRouteStep (f, cs) p =
          (updMap f p.output (some old), cs ++ [(p.output, old)]) from by
        simp [revRouteStep, hold]]
      rw [ih _ _ j hjqs]
      simp [updMap, hjp]

theorem revLockFold_fst_notmem :
    ∀ (ps : List PendingLock) (f : Nat → Option String) (cs : List (Nat × String))
      (j : Nat), j ∉ ps.map (fun p => p.output) →
      (ps.foldl revLockStep (f, cs)).1 j = f j := by
  intro ps
  induction ps with
  | nil => intro f cs j _; rfl
  | cons p qs ih =>
    intro f cs j hj
    have hjp : j ≠ p.output := fun hh => hj (by simp [hh])
    have hjqs : j ∉ qs.map (fun p => p.output) := fun hh => hj (by simp [hh])
    rw [List.foldl_cons]
    rcases hold : p.oldLock with _ | old
    · rw [show revLockStep (f, cs) p = (f, cs) from by simp [revLockStep, hold]]
      exact ih f cs j hjqs
    · rw [show revLockStep (f, cs) p =
          (updMap f p.output (some old), cs ++ [(p.output, old)]) from by
        simp [revLockStep, hold]]
      rw [ih _ _ j hjqs]
      simp [updMap, hjp]

theorem revRouteFold_fst_mem :
    ∀ (ps : List PendingRoute), (ps.map (fun p => p.output)).Nodup →
      ∀ (f : Nat → Option Nat) (cs : List (Nat × Nat)) (p : PendingRoute),
        p ∈ ps → ∀ old, p.oldInput = some old →
        (ps.foldl revRouteStep (f, cs)).1 p.output = some old := by
  intro ps
  induction ps with
  | nil => intro _ f cs p hp; exact absurd hp (by simp)
  | cons q qs ih =>
    intro hnd f cs p hp old hold
    rw [List.map_cons, List.nodup_cons] at hnd
    rw [List.foldl_cons]
    rcases List.mem_cons.mp hp with hpq | hpqs
    · subst hpq
      rw [show revRouteStep (f, cs) p =
          (updMap f p.output (some old), cs ++ [(p.output, old)]) from by
        simp [revRouteStep, hold]]
      rw [revRouteFold_fst_notmem qs _ _ p.output hnd.1]
      simp [updMap]
    · exact ih hnd.2 _ _ p hpqs old hold

theorem revLockFold_fst_mem :
    ∀ (ps : List PendingLock), (ps.map (fun p => p.output)).Nodup →
      ∀ (f : Nat → Option String) (cs : List (Nat × String)) (p : PendingLock),
        p ∈ ps → ∀ old, p.oldLock = some old →
        (ps.foldl revLockStep (f, cs)).1 p.output = some old := by
  intro ps
  induction ps with
  | nil => intro _ f cs p hp; exact absurd hp (by simp)
  | cons q qs ih =>
    intro hnd f cs p hp old hold
    rw [List.map_cons, List.nodup_cons] at hnd
    rw [List.foldl_cons]
    rcases List.mem_cons.mp hp with hpq | hpqs
    · subst hpq
      rw [show revLockStep (f, cs) p =
          (updMap f p.output (some old), cs ++ [(p.output, old)]) from by
        simp [revLockStep, hold]]
      rw [revLockFold_fst_notmem qs _ _ p.output hnd.1]
      simp [updMap]
    · exact ih hnd.2 _ _ p hpqs old hold

/-- Field-level characterization of the routing revert: the pending list
is cleared, lock state is untouched, and one `routing-changed` event
carries the written-back pairs (none when nothing was written back). -/
theorem revertPendingRouteChanges_fields (st : CtlState) :
    (revertPendingRouteChanges st).1.pendingRouteChanges = [] ∧
    (revertPendingRouteChanges st).1.pendingLockChanges = st.pendingLockChanges ∧
    (revertPendingRouteChanges st).1.outputLocks = st.outputLocks ∧
    (revertPendingRouteChanges st).2 =
      (if (revertedRoutes st.pendingRouteChanges).isEmpty then []
       else [CtlEvent.routingChanged (revertedRoutes st.pendingRouteChanges)]) := by
  by_cases hE : st.pendingRouteChanges.isEmpty
  · have hnil : st.pendingRouteChanges = [] := List.isEmpty_iff.mp hE
    simp [revertPendingRouteChanges, hE, hnil, revertedRoutes]
  · simp only [revertPendingRouteChanges, hE, Bool.false_eq_true, if_false]
    refine ⟨trivial, trivial, trivial, ?_⟩
    rw [revRouteFold_snd st.pendingRouteChanges st.routing []]
    simp only [List.nil_append]
    by_cases hR : (revertedRoutes st.pendingRouteChanges).isEmpty <;> simp [hR]

theorem revertPendingLockChanges_fields (st : CtlState) :
    (revertPendingLockChanges st).1.pendingLockChanges = [] ∧
    (revertPendingLockChanges st).1.pendingRouteChanges = st.pendingRouteChanges ∧
    (revertPendingLockChanges st).1.routing = st.routing ∧
    (revertPendingLockChanges st).2 =
      (if (revertedLocks st.pendingLockChanges).isEmpty then []
       else [CtlEvent.locksChanged (revertedLocks st.pendingLockChanges)]) := by
  by_cases hE : st.pendingLockChanges.isEmpty
  · have hnil : st.pendingLockChanges = [] := List.isEmpty_iff.mp hE
    simp [revertPendingLockChanges, hE, hnil, revertedLocks]
  · simp only [revertPendingLockChanges, hE, Bool.false_eq_true, if_false]
    refine ⟨trivial, trivial, trivial, ?_⟩
    rw [revLockFold_snd st.pendingLockChanges st.outputLocks []]
    simp only [List.nil_append]
    by_cases hR : (revertedLocks st.pendingLockChanges).isEmpty <;> simp [hR]

/-- Routing rollback: with distinct pending outputs, the mirror entry of
every pending record with a defined old value is back at that value. -/
theorem revertPendingRouteChanges_routing (st : CtlState)
    (hnd : (st.pendingRouteChanges.map (fun p => p.output)).Nodup)
    (p : PendingRoute) (hp : p ∈ st.pendingRouteChanges)
    (old : Nat) (hold : p.oldInput = some old) :
    (revertPendingRouteChanges st).1.routing p.output = some old := by
  have hE : st.pendingRouteChanges.isEmpty = false := by
    cases hh : st.pendingRouteChanges with
    | nil => rw [hh] at hp; exact absurd hp (by simp)
    | cons a b => simp [hh]
  simp only [revertPendingRouteChanges, hE, Bool.false_eq_true, if_false]
  exact revRouteFold_fst_mem st.pendingRouteChanges hnd st.routing [] p hp old hold

theorem revertPendingLockChanges_outputLocks (st : CtlState)
    (hnd : (st.pendingLockChanges.map (fun p => p.output)).Nodup)
    (p : PendingLock) (hp : p ∈ st.pendingLockChanges)
    (old : String) (hold : p.oldLock = some old) :
    (revertPendingLockChanges st).1.outputLocks p.output = some old := by
  have hE : st.pendingLockChanges.isEmpty = false := by
    cases hh : st.pendingLockChanges with
    | nil => rw [hh] at hp; exact absurd hp (by simp)
    | cons a b => simp [hh]
  simp only [revertPendingLockChanges, hE, Bool.false_eq_true, if_false]
  exact revLockFold_fst_mem st.pendingLockChanges hnd st.outputLocks [] p hp old hold

/-- The `NAK` branch of `processBlock` (lines 1268-1273): revert routes,
then locks, then emit the error event. -/
theorem processBlock_nak (st : CtlState) :
    processBlock st ["NAK"] =
      ((revertPendingLockChanges (revertPendingRouteChanges st).1).1,
        (revertPendingRouteChanges st).2 ++
          (revertPendingLockChanges (revertPendingRouteChanges st).1).2 ++
          [CtlEvent.error "Command rejected by router"]) := by
  simp only [processBlock]
  rw [if_neg (by decide), if_neg (by decide), if_neg (by decide),
    if_neg (by decide), if_neg (by decide), if_neg (by decide),
    if_neg (by decide), if_pos (by decide)]

end Ctl

/-! ## Update-block dispatch characterizations used by the claims below:
each update section of `VideoHubServer.processCommand` replies `ACK` with
the applied changes broadcast when at least one body entry was applied,
and `NAK` with no broadcast, no event and the state unchanged when every
entry was rejected. -/

theorem processCommand_routing_case (st : VH.VHState) (sock : VH.Owner)
    (lines : List String)
    (hh : lines.getD 0 "" = "VIDEO OUTPUT ROUTING:")
    (hne : (dataLinesOf lines).isEmpty = false) :
    VH.processCommand st sock lines =
      if (VH.applyRouting sock st (dataLinesOf lines)).2.isEmpty then
        ⟨["NAK\n\n"], [], [], st⟩
      else
        ⟨["ACK\n\n"],
          [VH.VHBcast.routing (VH.applyRouting sock st (dataLinesOf lines)).2],
          [VH.VHEvent.routingChanged (VH.applyRouting sock st (dataLinesOf lines)).2],
          (VH.applyRouting sock st (dataLinesOf lines)).1⟩ := by
  simp only [VH.processCommand, hh, hne, Bool.false_eq_true, if_true, if_false]
  rw [if_neg (by decide)]
  by_cases hE : (VH.applyRouting sock st (dataLinesOf lines)).2.isEmpty = true
  · simp [hE, VH.applyRouting_fst_of_nil sock st (dataLinesOf lines)
      (List.isEmpty_iff.mp hE)]
  · simp [hE]

theorem processCommand_locks_case (st : VH.VHState) (sock : VH.Owner)
    (lines : List String)
    (hh : lines.getD 0 "" = "VIDEO OUTPUT LOCKS:")
    (hne : (dataLinesOf lines).isEmpty = false) :
    VH.processCommand st sock lines =
      if (VH.applyLocks sock st (dataLinesOf lines)).2.isEmpty then
        ⟨["NAK\n\n"], [], [], st⟩
      else
        ⟨["ACK\n\n"],
          [VH.VHBcast.locks (VH.applyLocks sock st (dataLinesOf lines)).2],
          [VH.VHEvent.locksChanged
            ((VH.applyLocks sock st (dataLinesOf lines)).2.map
              (fun o => (o, VH.emitLockState (VH.applyLocks sock st (dataLinesOf lines)).1 o)))],
          (VH.applyLocks sock st (dataLinesOf lines)).1⟩ := by
  simp only [VH.processCommand, hh, hne, Bool.false_eq_true, if_true, if_false]
  rw [if_neg (by decide), if_neg (by decide)]
  by_cases hE : (VH.applyLocks sock st (dataLinesOf lines)).2.isEmpty = true
  · simp [hE, VH.applyLocks_fst_of_nil sock st (dataLinesOf lines)
      (List.isEmpty_iff.mp hE)]
  · simp [hE]

theorem processCommand_inLabels_case (st : VH.VHState) (sock : VH.Owner)
    (lines : List String)
    (hh : lines.getD 0 "" = "INPUT LABELS:")
    (hne : (dataLinesOf lines).isEmpty = false) :
    VH.processCommand st sock lines =
      if (VH.applyInLabels st (dataLinesOf lines)).2.isEmpty then
        ⟨["NAK\n\n"], [], [], st⟩
      else
        ⟨["ACK\n\n"],
          [VH.VHBcast.inLabels (VH.applyInLabels st (dataLinesOf lines)).2],
          [VH.VHEvent.inputLabelsChanged (VH.applyInLabels st (dataLinesOf lines)).2],
          (VH.applyInLabels st (dataLinesOf lines)).1⟩ := by
  simp only [VH.processCommand, hh, hne, Bool.false_eq_true, if_true, if_false]
  rw [if_neg (by decide), if_neg (by decide), if_neg (by decide)]
  by_cases hE : (VH.applyInLabels st (dataLinesOf lines)).2.isEmpty = true
  · simp [hE, VH.applyInLabels_fst_of_nil st (dataLinesOf lines)
      (List.isEmpty_iff.mp hE)]
  · simp [hE]

theorem processCommand_outLabels_case (st : VH.VHState) (sock : VH.Owner)
    (lines : List String)
    (hh : lines.getD 0 "" = "OUTPUT LABELS:")
    (hne : (dataLinesOf lines).isEmpty = false) :
    VH.processCommand st sock lines =
      if (VH.applyOutLabels st (dataLinesOf lines)).2.isEmpty then
        ⟨["NAK\n\n"], [], [], st⟩
      else
        ⟨["ACK\n\n"],
          [VH.VHBcast.outLabels (VH.applyOutLabels st (dataLinesOf lines)).2],
          [VH.VHEvent.outputLabelsChanged (VH.applyOutLabels st (dataLinesOf lines)).2],
          (VH.applyOutLabels st (dataLinesOf lines)).1⟩ := by
  simp only [VH.processCommand, hh, hne, Bool.false_eq_true, if_true, if_false]
  rw [if_neg (by decide), if_neg (by decide), if_neg (by decide),
    if_neg (by decide)]
  by_cases hE : (VH.applyOutLabels st (dataLinesOf lines)).2.isEmpty = true
  · simp [hE, VH.applyOutLabels_fst_of_nil st (dataLinesOf lines)
      (List.isEmpty_iff.mp hE)]
  · simp [hE]

/-! ## Concrete test fixtures for the claim theorems below -/

/-- A connected controller mirror with every output routed to input 0 and
no pending records. -/
def ctlConnected : Ctl.CtlState :=
  { connected := true, inputs := 12, outputs := 12,
    routing := fun _ => some 0,
    inputLabels := fun _ => none, outputLabels := fun _ => none,
    outputLocks := fun _ => none,
    modelName := "", friendlyName := "", uniqueId := "",
    pendingRouteChanges := [], pendingLockChanges := [] }

/-- The pending-record list after two consecutive value-changing
`setRoute` calls for the same output. -/
def c4Pending : Option (List Ctl.PendingRoute) :=
  (Ctl.setRoute ctlConnected 3 1).bind
    (fun r => (Ctl.setRoute r.1 3 2).map (fun r2 => r2.1.pendingRouteChanges))

/-- A controller mirror holding one optimistic routing record for output
3 (mirror already at the new value 1, old value 0) and one optimistic
lock record for output 2 (mirror at `O`, old value `U`). -/
def c5St : Ctl.CtlState :=
  { ctlConnected with
    routing := fun j => if j = 3 then some 1 else some 0,
    outputLocks := fun j => if j = 2 then some "O" else none,
    pendingRouteChanges := [⟨3, some 0, 1⟩],
    pendingLockChanges := [⟨2, some "U", "O"⟩] }

/-- A VideoHub server state whose destination 2 is locked by connection 5. -/
def c6St : VH.VHState :=
  { inputs := 12, outputs := 12, routing := fun _ => none,
    inputLabels := fun _ => none, outputLabels := fun _ => none,
    lockOwners := fun i => if i = 2 then some (VH.Owner.conn 5) else none }

/-- A VideoHub server state whose destination 2 is locked by connection 5
(close-handler fixture). -/
def c7St : VH.VHState :=
  { inputs := 4, outputs := 4, routing := fun _ => none,
    inputLabels := fun _ => none, outputLabels := fun _ => none,
    lockOwners := fun i => if i = 2 then some (VH.Owner.conn 5) else none }

/-- An SW-P-08 server state with a 12x12 matrix and an empty routing
table. -/
def c10St : SWP08.SwpState :=
  { inputs := 12, outputs := 12, levels := 1, routing := fun _ _ => none,
    inputLabels := fun _ => none, outputLabels := fun _ => none }

/-! ## Claim theorems -/

/-- C1 (corrected).  The GV Native codec and the VideoHub block codec do
round-trip: a built frame is extracted whole and parses back to the
original command and parameters, and an encoded block decodes to the
original lines.  The SW-P-08 codec does not: `buildMessage` writes
`BTC = data.length` while `processBuffer` expects `BTC = length + 1`, so
every self-built frame takes the legacy fallback and the message handed
to `processMessage` is the original bytes with the BTC byte appended,
not the original message. -/
theorem claim_C1 :
    (∀ m : List Nat, m ≠ [] →
      SWP08.processBuffer (SWP08.buildMessage m) =
        ([SWP08.RxItem.msg (m ++ [m.length % 256])], [])) ∧
    (∀ (c1 c2 : Char) (params : List (List Char)), c1 ≠ GV.EOT → c2 ≠ GV.EOT →
      (∀ p ∈ params, p ≠ [] ∧ GV.HT ∉ p ∧ GV.EOT ∉ p) →
      GV.extractFrames (GV.buildMessage c1 c2 params) =
        ([GV.buildBody c1 c2 params ++ GV.checksumChars (GV.buildBody c1 c2 params)],
          []) ∧
      GV.parseMessage
          (GV.buildBody c1 c2 params ++ GV.checksumChars (GV.buildBody c1 c2 params)) =
        some ⟨'0', c1, c2, params⟩) ∧
    (∀ lines : List (List Char), lines ≠ [] →
      (∀ l ∈ lines, l ≠ [] ∧ '\n' ∉ l) →
      VHWire.trimC (List.intercalate ['\n'] lines) = List.intercalate ['\n'] lines →
      VHWire.decodeBlocks (VHWire.encodeBlock lines) = ([lines], [])) :=
  ⟨SWP08.processBuffer_buildMessage,
   fun c1 c2 params hc1 hc2 hp =>
     ⟨GV.extractFrames_buildMessage c1 c2 params hc1 hc2
        (fun p hpm => (hp p hpm).2.2),
      GV.parseMessage_buildMessage c1 c2 params
        (fun p hpm => ⟨(hp p hpm).1, (hp p hpm).2.1⟩)⟩,
   fun lines hne hl hT => VHWire.decodeBlocks_encodeBlock lines hne hl hT⟩

/-- C1 counterexample: the SW-P-08 frame of message `[2, 0, 0, 3, 7]`
decodes to `[2, 0, 0, 3, 7, 5]` — the BTC byte 5 is appended — so the
message handed to `processMessage` is not the original message. -/
theorem claim_C1_cex :
    SWP08.processBuffer (SWP08.buildMessage [2, 0, 0, 3, 7]) =
      ([SWP08.RxItem.msg [2, 0, 0, 3, 7, 5]], []) ∧
    ([2, 0, 0, 3, 7, 5] : List Nat) ≠ [2, 0, 0, 3, 7] := by
  decide

/-- C1 witness: the three codec statements at concrete inputs. -/
theorem claim_C1_witness :
    SWP08.processBuffer (SWP08.buildMessage [1, 2]) =
      ([SWP08.RxItem.msg [1, 2, 2]], []) ∧
    GV.extractFrames (GV.buildMessage 'Q' 'J' [['a']]) =
      ([GV.buildBody 'Q' 'J' [['a']] ++ GV.checksumChars (GV.buildBody 'Q' 'J' [['a']])],
        []) ∧
    GV.parseMessage
        (GV.buildBody 'Q' 'J' [['a']] ++ GV.checksumChars (GV.buildBody 'Q' 'J' [['a']])) =
      some ⟨'0', 'Q', 'J', [['a']]⟩ ∧
    VHWire.decodeBlocks (VHWire.encodeBlock [['A'], ['B']]) = ([[['A'], ['B']]], []) :=
  ⟨claim_C1.1 [1, 2] (by decide),
   (claim_C1.2.1 'Q' 'J' [['a']] (by decide) (by decide) (by decide)).1,
   (claim_C1.2.1 'Q' 'J' [['a']] (by decide) (by decide) (by decide)).2,
   claim_C1.2.2 [['A'], ['B']] (by decide) (by decide) (by decide)⟩

/-- C2 (code bug).  `updateConfig` only fills `undefined` routing entries
and never clamps existing ones, so shrinking `inputs` leaves stale routes
that break invariant I1: after `updateConfig({inputs: 4})` on a 12x12
server, destination 5 is still in range (`5 < outputs = 12`) but its
route is source 5, and `5 < inputs = 4` is false. -/
theorem claim_C2 :
    (VH.updateConfig (VH.initState 12 12) ⟨some 4, none⟩).inputs = 4 ∧
    (VH.updateConfig (VH.initState 12 12) ⟨some 4, none⟩).outputs = 12 ∧
    (VH.updateConfig (VH.initState 12 12) ⟨some 4, none⟩).routing 5 = some 5 ∧
    ¬ (5 : Nat) < 4 := by
  refine ⟨rfl, rfl, ?_, by decide⟩
  simp [VH.updateConfig, VH.initState]

/-- C3 (confirmed).  For each of the four update blocks with a non-empty
body: when at least one entry is applied the reply is `ACK` with exactly
the applied subset broadcast (and the matching event); when every entry
is rejected the reply is `NAK`, nothing is broadcast, no event is
emitted, and the model state is unchanged. -/
theorem claim_C3 (st : VH.VHState) (sock : VH.Owner) (lines : List String)
    (hne : (dataLinesOf lines).isEmpty = false) :
    (lines.getD 0 "" = "VIDEO OUTPUT ROUTING:" →
      VH.processCommand st sock lines =
        if (VH.applyRouting sock st (dataLinesOf lines)).2.isEmpty then
          ⟨["NAK\n\n"], [], [], st⟩
        else
          ⟨["ACK\n\n"],
            [VH.VHBcast.routing (VH.applyRouting sock st (dataLinesOf lines)).2],
            [VH.VHEvent.routingChanged (VH.applyRouting sock st (dataLinesOf lines)).2],
            (VH.applyRouting sock st (dataLinesOf lines)).1⟩) ∧
    (lines.getD 0 "" = "VIDEO OUTPUT LOCKS:" →
      VH.processCommand st sock lines =
        if (VH.applyLocks sock st (dataLinesOf lines)).2.isEmpty then
          ⟨["NAK\n\n"], [], [], st⟩
        else
          ⟨["ACK\n\n"],
            [VH.VHBcast.locks (VH.applyLocks sock st (dataLinesOf lines)).2],
            [VH.VHEvent.locksChanged
              ((VH.applyLocks sock st (dataLinesOf lines)).2.map
                (fun o => (o, VH.emitLockState (VH.applyLocks sock st (dataLinesOf lines)).1 o)))],
            (VH.applyLocks sock st (dataLinesOf lines)).1⟩) ∧
    (lines.getD 0 "" = "INPUT LABELS:" →
      VH.processCommand st sock lines =
        if (VH.applyInLabels st (dataLinesOf lines)).2.isEmpty then
          ⟨["NAK\n\n"], [], [], st⟩
        else
          ⟨["ACK\n\n"],
            [VH.VHBcast.inLabels (VH.applyInLabels st (dataLinesOf lines)).2],
            [VH.VHEvent.inputLabelsChanged (VH.applyInLabels st (dataLinesOf lines)).2],
            (VH.applyInLabels st (dataLinesOf lines)).1⟩) ∧
    (lines.getD 0 "" = "OUTPUT LABELS:" →
      VH.processCommand st sock lines =
        if (VH.applyOutLabels st (dataLinesOf lines)).2.isEmpty then
          ⟨["NAK\n\n"], [], [], st⟩
        else
          ⟨["ACK\n\n"],
            [VH.VHBcast.outLabels (VH.applyOutLabels st (dataLinesOf lines)).2],
            [VH.VHEvent.outputLabelsChanged (VH.applyOutLabels st (dataLinesOf lines)).2],
            (VH.applyOutLabels st (dataLinesOf lines)).1⟩) :=
  ⟨fun hh => processCommand_routing_case st sock lines hh hne,
   fun hh => processCommand_locks_case st sock lines hh hne,
   fun hh => processCommand_inLabels_case st sock lines hh hne,
   fun hh => processCommand_outLabels_case st sock lines hh hne⟩

/-- C3 witness: a routing update whose only entry is out of range is
NAKed and leaves the state unchanged. -/
theorem claim_C3_witness :
    VH.processCommand (VH.initState 2 2) (VH.Owner.conn 0)
        ["VIDEO OUTPUT ROUTING:", "3 99"] =
      ⟨["NAK\n\n"], [], [], VH.initState 2 2⟩ := by
  have h := (claim_C3 (VH.initState 2 2) (VH.Owner.conn 0)
    ["VIDEO OUTPUT ROUTING:", "3 99"] (by decide)).1 rfl
  rw [h]
  rfl

/-- C4 (corrected).  An authoritative `VIDEO OUTPUT ROUTING` /
`VIDEO OUTPUT LOCKS` line for a target does clear every matching pending
record (the surviving pending records are exactly those whose output has
no authoritative line in the block); but the at-most-one-record bound
does not hold — see the counterexample. -/
theorem claim_C4 (st : Ctl.CtlState) (lines : List String) :
    (Ctl.parseRouting st lines).1.pendingRouteChanges =
      st.pendingRouteChanges.filter
        (fun p => decide (p.output ∉ Ctl.routeTargets lines)) ∧
    (Ctl.parseLocks st lines).1.pendingLockChanges =
      st.pendingLockChanges.filter
        (fun p => decide (p.output ∉ Ctl.lockTargets lines)) :=
  ⟨Ctl.parseRoutingFold_pending lines st [],
   Ctl.parseLocksFold_pending lines st []⟩

/-- C4 counterexample: two consecutive value-changing `setRoute` calls
for output 3 leave two pending records for that output, refuting the
at-most-one-pending-record-per-target part of the claim. -/
theorem claim_C4_cex :
    c4Pending = some [⟨3, some 0, 1⟩, ⟨3, some 1, 2⟩] ∧
    c4Pending.map (fun l => (l.filter (fun p => p.output == 3)).length) = some 2 := by
  constructor
  · rfl
  · rfl

/-- C5 (confirmed).  A `NAK` reply clears every outstanding pending
record of both kinds, rolls the mirror back to each record's old value
(for records whose old value was defined, with distinct pending outputs),
and emits the change events followed by the error event. -/
theorem claim_C5 (st : Ctl.CtlState)
    (hndr : (st.pendingRouteChanges.map (fun p => p.output)).Nodup)
    (hndl : (st.pendingLockChanges.map (fun p => p.output)).Nodup) :
    (Ctl.processBlock st ["NAK"]).1.pendingRouteChanges = [] ∧
    (Ctl.processBlock st ["NAK"]).1.pendingLockChanges = [] ∧
    (∀ p ∈ st.pendingRouteChanges, ∀ old, p.oldInput = some old →
      (Ctl.processBlock st ["NAK"]).1.routing p.output = some old) ∧
    (∀ p ∈ st.pendingLockChanges, ∀ old, p.oldLock = some old →
      (Ctl.processBlock st ["NAK"]).1.outputLocks p.output = some old) ∧
    (Ctl.processBlock st ["NAK"]).2 =
      ((if (Ctl.revertedRoutes st.pendingRouteChanges).isEmpty then []
        else [Ctl.CtlEvent.routingChanged
          (Ctl.revertedRoutes st.pendingRouteChanges)]) ++
       (if (Ctl.revertedLocks st.pendingLockChanges).isEmpty then []
        else [Ctl.CtlEvent.locksChanged
          (Ctl.revertedLocks st.pendingLockChanges)]) ++
       [Ctl.CtlEvent.error "Command rejected by router"]) := by
  have h1 := Ctl.revertPendingRouteChanges_fields st
  have h2 := Ctl.revertPendingLockChanges_fields (Ctl.revertPendingRouteChanges st).1
  rw [Ctl.processBlock_nak]
  refine ⟨?_, h2.1, ?_, ?_, ?_⟩
  · rw [h2.2.1, h1.1]
  · intro p hp old hold
    rw [h2.2.2.1]
    exact Ctl.revertPendingRouteChanges_routing st hndr p hp old hold
  · intro p hp old hold
    have hpend : (Ctl.revertPendingRouteChanges st).1.pendingLockChanges =
        st.pendingLockChanges := h1.2.1
    exact Ctl.revertPendingLockChanges_outputLocks _
      (by rw [hpend]; exact hndl) p (by rw [hpend]; exact hp) old hold
  · rw [h1.2.2.2, h2.2.2.2, h1.2.1]

/-- C5 witness: the fixture with one pending record of each kind is fully
rolled back by `NAK` and the three events are emitted in order. -/
theorem claim_C5_witness :
    (Ctl.processBlock c5St ["NAK"]).1.pendingRouteChanges = [] ∧
    (Ctl.processBlock c5St ["NAK"]).1.pendingLockChanges = [] ∧
    (Ctl.processBlock c5St ["NAK"]).1.routing 3 = some 0 ∧
    (Ctl.processBlock c5St ["NAK"]).1.outputLocks 2 = some "U" ∧
    (Ctl.processBlock c5St ["NAK"]).2 =
      [Ctl.CtlEvent.routingChanged [(3, 0)], Ctl.CtlEvent.locksChanged [(2, "U")],
        Ctl.CtlEvent.error "Command rejected by router"] :=
  ⟨(claim_C5 c5St (by decide) (by decide)).1,
   (claim_C5 c5St (by decide) (by decide)).2.1,
   (claim_C5 c5St (by decide) (by decide)).2.2.1 ⟨3, some 0, 1⟩ (by decide) 0 rfl,
   (claim_C5 c5St (by decide) (by decide)).2.2.2.1 ⟨2, some "U", "O"⟩ (by decide)
     "U" rfl,
   by decide⟩

/-- C6 (confirmed).  For a lock request on an in-range destination (the
state machine `lockOpApply` runs after the bounds check): `O` takes
ownership unconditionally, even over another connection's lock; `U`
releases exactly when the destination is unlocked or owned by the caller
and is otherwise rejected with no state change; `F` unconditionally
releases, leaving the destination unlocked (`U`). -/
theorem claim_C6 (sock : VH.Owner) (st : VH.VHState) (o : Nat) :
    VH.lockOpApply sock st o "O" =
      ({st with lockOwners := updMap st.lockOwners o (some sock)}, some o) ∧
    ((st.lockOwners o = none ∨ st.lockOwners o = some sock) →
      VH.lockOpApply sock st o "U" =
        ({st with lockOwners := updMap st.lockOwners o none}, some o)) ∧
    (¬ (st.lockOwners o = none ∨ st.lockOwners o = some sock) →
      VH.lockOpApply sock st o "U" = (st, none)) ∧
    VH.lockOpApply sock st o "F" =
      ({st with lockOwners := updMap st.lockOwners o none}, some o) ∧
    (VH.lockOpApply sock st o "F").1.lockOwners o = none ∧
    VH.lockView (VH.lockOpApply sock st o "F").1 sock o = "U" := by
  refine ⟨by simp [VH.lockOpApply], fun h => by simp [VH.lockOpApply, h],
    fun h => by simp [VH.lockOpApply, h], by simp [VH.lockOpApply],
    by simp [VH.lockOpApply, updMap], by simp [VH.lockOpApply, VH.lockView, updMap]⟩

/-- C6 witness: with destination 2 locked by connection 5, an unlock
request from connection 7 is rejected with no state change, while an own
request from connection 7 transfers ownership. -/
theorem claim_C6_witness :
    (¬ (c6St.lockOwners 2 = none ∨ c6St.lockOwners 2 = some (VH.Owner.conn 7))) ∧
    VH.lockOpApply (VH.Owner.conn 7) c6St 2 "U" = (c6St, none) ∧
    (VH.lockOpApply (VH.Owner.conn 7) c6St 2 "O").1.lockOwners 2 =
      some (VH.Owner.conn 7) :=
  ⟨by decide, (claim_C6 (VH.Owner.conn 7) c6St 2).2.2.1 (by decide), by decide⟩

/-- C7 (confirmed).  After the close handler for connection `sock` runs,
no in-range destination lock is owned by `sock`, and the lock delta
(exactly the freed destinations, reported as `U`) is broadcast and
emitted — or nothing at all when `sock` held no locks. -/
theorem claim_C7 (st : VH.VHState) (sock : Nat) :
    (∀ j, j < st.outputs →
      (VH.handleClose st sock).1.lockOwners j ≠ some (VH.Owner.conn sock)) ∧
    (VH.handleClose st sock).2.1 =
      (if (VH.freedBy st sock).isEmpty then []
       else [VH.VHBcast.locks (VH.freedBy st sock)]) ∧
    (VH.handleClose st sock).2.2 =
      (if (VH.freedBy st sock).isEmpty then []
       else [VH.VHEvent.locksChanged
         ((VH.freedBy st sock).map (fun o => (o, "U")))]) := by
  refine ⟨?_, ?_, ?_⟩
  · intro j hj
    rw [VH.handleClose_lockOwners]
    by_cases hcase : st.lockOwners j = some (VH.Owner.conn sock)
    · rw [if_pos ⟨hj, hcase⟩]
      simp
    · rw [if_neg (fun hh => hcase hh.2)]
      exact hcase
  · by_cases hE : (VH.freedBy st sock).isEmpty = true <;>
      simp [VH.handleClose, VH.handleClose_changes, hE]
  · by_cases hE : (VH.freedBy st sock).isEmpty = true <;>
      simp [VH.handleClose, VH.handleClose_changes, hE]

/-- C7 witness: closing connection 5, which holds the lock on
destination 2 of a 4-output server, frees that lock and broadcasts the
delta `2 U`. -/
theorem claim_C7_witness :
    ((2 : Nat) < c7St.outputs) ∧
    (VH.handleClose c7St 5).1.lockOwners 2 ≠ some (VH.Owner.conn 5) ∧
    (VH.handleClose c7St 5).2.1 = [VH.VHBcast.locks [2]] ∧
    (VH.handleClose c7St 5).2.2 = [VH.VHEvent.locksChanged [(2, "U")]] :=
  ⟨by decide, (claim_C7 c7St 5).1 2 (by decide),
   by rw [(claim_C7 c7St 5).2.1]; rfl,
   by rw [(claim_C7 c7St 5).2.2]; rfl⟩

/-- C8 (confirmed).  SW-P-08 address packing round-trips: in the standard
form every destination and source address below 1024 is recovered from
the multiplier byte and its 7-bit low byte, and in the extended form
every address below 65536 is recovered from its two bytes. -/
theorem claim_C8 (d s a : Nat) (hd : d < 1024) (hs : s < 1024)
    (ha : a < 65536) :
    SWP08.swpDest (SWP08.swpMult (SWP08.swpHi7 d) (SWP08.swpHi7 s))
      (SWP08.swpLo7 d) = d ∧
    SWP08.swpSrc (SWP08.swpMult (SWP08.swpHi7 d) (SWP08.swpHi7 s))
      (SWP08.swpLo7 s) = s ∧
    SWP08.swpExtAddr (SWP08.swpExtHi a) (SWP08.swpExtLo a) = a := by
  refine ⟨?_, ?_, ?_⟩
  · rw [SWP08.swpDest_eq, SWP08.swpMult_eq _ _ (by rw [SWP08.swpHi7_eq]; omega),
      SWP08.swpHi7_eq, SWP08.swpHi7_eq, SWP08.swpLo7_eq]
    omega
  · rw [SWP08.swpSrc_eq, SWP08.swpMult_eq _ _ (by rw [SWP08.swpHi7_eq]; omega),
      SWP08.swpHi7_eq, SWP08.swpHi7_eq, SWP08.swpLo7_eq]
    omega
  · rw [SWP08.swpExtAddr_eq _ _ (by rw [SWP08.swpExtLo_eq]; omega),
      SWP08.swpExtHi_eq, SWP08.swpExtLo_eq]
    omega

/-- C8 witness: the round trip at destination 1023, source 77 and
extended address 65535. -/
theorem claim_C8_witness :
    ((1023 : Nat) < 1024 ∧ (77 : Nat) < 1024 ∧ (65535 : Nat) < 65536) ∧
    (SWP08.swpDest (SWP08.swpMult (SWP08.swpHi7 1023) (SWP08.swpHi7 77))
        (SWP08.swpLo7 1023) = 1023 ∧
      SWP08.swpSrc (SWP08.swpMult (SWP08.swpHi7 1023) (SWP08.swpHi7 77))
        (SWP08.swpLo7 77) = 77 ∧
      SWP08.swpExtAddr (SWP08.swpExtHi 65535) (SWP08.swpExtLo 65535) = 65535) :=
  ⟨⟨by decide, by decide, by decide⟩,
   claim_C8 1023 77 65535 (by decide) (by decide) (by decide)⟩

/-- C9 (corrected).  SW-P-08 wire labels are exactly the configured
character length (truncated, then space-padded).  GV Native truncates
stored labels to at most 8 characters but never pads them, so a shorter
label is presented at its natural width — see the counterexample. -/
theorem claim_C9 (label : String) (idx i : Nat) :
    (SWP08.swpPadLabel label (SWP08.charLenOf idx)).length =
      SWP08.charLenOf idx ∧
    (GV.storedInputLabel label).length ≤ 8 ∧
    (GV.initInputLabel i).length ≤ 8 ∧
    (GV.initOutputLabel i).length ≤ 8 := by
  refine ⟨jsPadEnd_substring_length label _, ?_, ?_, ?_⟩
  · simp only [GV.storedInputLabel, jsSubstring0, String.length,
      List.length_take]
    omega
  · simp only [GV.initInputLabel, jsSubstring0, String.length,
      List.length_take]
    omega
  · simp only [GV.initOutputLabel, jsSubstring0, String.length,
      List.length_take]
    omega

/-- C9 counterexample: the GV Native `sendDestNames` response carries the
default label `PGM` verbatim as a 3-character parameter, not padded to
the fixed width 8. -/
theorem claim_C9_cex :
    "PGM".data ∈ GV.sendDestNamesParams (GV.initState 12 12 1) false ∧
    "PGM".data.length = 3 ∧ (3 : Nat) ≠ 8 := by
  decide

/-- C10 (confirmed).  A correctly framed Crosspoint Connect whose decoded
destination or source is out of range is still ACKed at the link level
(the frame passes the checksum check), but `handleCrosspointConnect`
silently drops it: no reply, no broadcast, and the routing table is
unchanged. -/
theorem claim_C10 (st : SWP08.SwpState) (matrixLevel mult destLo srcLo : Nat)
    (hoob : ¬ (SWP08.swpDest mult destLo < st.outputs ∧
      SWP08.swpSrc mult srcLo < st.inputs)) :
    SWP08.processBuffer (SWP08.buildMessage
        [SWP08.CROSSPOINT_CONNECT, matrixLevel, mult, destLo, srcLo]) =
      ([SWP08.RxItem.msg
          [SWP08.CROSSPOINT_CONNECT, matrixLevel, mult, destLo, srcLo, 5]], []) ∧
    SWP08.linkReplies
        [SWP08.RxItem.msg
          [SWP08.CROSSPOINT_CONNECT, matrixLevel, mult, destLo, srcLo, 5]] =
      [[SWP08.DLE, SWP08.ACK]] ∧
    SWP08.processMessage st
        [SWP08.CROSSPOINT_CONNECT, matrixLevel, mult, destLo, srcLo, 5] =
      SWP08.noFx st := by
  refine ⟨?_, rfl, ?_⟩
  · have h := SWP08.processBuffer_buildMessage
      [SWP08.CROSSPOINT_CONNECT, matrixLevel, mult, destLo, srcLo] (by simp)
    simpa using h
  · simp only [SWP08.processMessage, List.length_cons, List.getD_cons_zero,
      List.getD_cons_succ]
    rw [if_pos trivial]
    simp only [SWP08.handleCrosspointConnect, List.length_cons,
      List.getD_cons_zero, List.getD_cons_succ]
    rw [if_neg hoob]
    rw [if_neg (by omega), if_neg (by decide), ite_self]

/-- C10 witness: on a 12x12 matrix, the frame for destination 99 (source
7) decodes and is ACKed, and the handler leaves the state untouched. -/
theorem claim_C10_witness :
    SWP08.processBuffer (SWP08.buildMessage [2, 0, 0, 99, 7]) =
      ([SWP08.RxItem.msg [2, 0, 0, 99, 7, 5]], []) ∧
    SWP08.processMessage c10St [2, 0, 0, 99, 7, 5] = SWP08.noFx c10St :=
  ⟨(claim_C10 c10St 0 0 99 7 (by decide)).1,
   (claim_C10 c10St 0 0 99 7 (by decide)).2.2⟩

end VideoHubSim
